import Mathlib

/-!
Verification of the musike listening-history ingestion pipeline.

This file is a shallow embedding of the backend Go code of the repository:
handlers/import.go, services/tracking.go (the full tracking service with the
paginated catch-up sync walker), utils/time_utils.go, and the relational
schema of database/init.sql.

Modelling conventions:
- Lean String is a structure over a character list; character-level string
  operations (strings.Split, strings.ToLower, strings.ReplaceAll, time.Parse)
  are written against the underlying char list.
- Wall-clock instants are epoch milliseconds (Int); Go time.Time values parsed
  from timestamps are kept as broken-down components plus a UTC offset, and
  UnixMilli is computed with the standard civil-calendar day count.
  The .Local() conversions in the Go code only change the display location of
  a time.Time, never the instant, so the model tracks instants.
- SQL tables are row lists; INSERT ... ON CONFLICT clauses are modelled by the
  PostgreSQL semantics of the written statement.  The unique constraints the
  schema actually declares are recorded separately (see
  listeningHistoryUniqueConstraints below).
- Network calls (Spotify API) are modelled as explicit function parameters;
  a failing call is the None result.  Database errors are out of scope: every
  modelled statement succeeds.
-/

namespace Musike

/-! ## Character-level string helpers (Go strings package) -/

/-- Embeds strings.Split(s, ":") from Go at the character level: split a char
list on a separator character.  The result is always nonempty. -/
def splitOnChar (sep : Char) : List Char → List (List Char)
  | [] => [[]]
  | c :: cs =>
    match splitOnChar sep cs with
    | [] => [[]]
    | w :: ws => if c = sep then [] :: w :: ws else (c :: w) :: ws

/-- Embeds strings.ToLower from Go (ASCII case fold; the Go version also folds
non-ASCII letters, which no claim exercises). -/
def goToLower (s : String) : String := ⟨s.data.map Char.toLower⟩

/-- Embeds strings.ReplaceAll(s, " ", "_") from Go for the single-character
pattern used by the import handler. -/
def replaceSpaces (s : String) : String :=
  ⟨s.data.map (fun c => if c = ' ' then '_' else c)⟩

/-! ## Bulk-export records and the import validity filter (import.go) -/

/-- SpotifyStreamingData from import.go: one record of a bulk export file
(only the fields the import pipeline reads). -/
structure SpotifyStreamingData where
  ts : String
  platform : String
  msPlayed : Int
  connCountry : String
  trackName : String
  artistName : String
  albumName : String
  spotifyTrackURI : String
  reasonStart : String
  reasonEnd : String
  shuffle : Bool
  skipped : Option Bool
  offline : Bool
  incognitoMode : Bool
  deriving DecidableEq, Repr

/-- The validity filter of processJSONFile (import.go line 279):
stream.MsPlayed >= 5000 && stream.TrackName != "" && stream.ArtistName != "". -/
def isValidStream (s : SpotifyStreamingData) : Prop :=
  5000 ≤ s.msPlayed ∧ s.trackName ≠ "" ∧ s.artistName ≠ ""

instance (s : SpotifyStreamingData) : Decidable (isValidStream s) := by
  unfold isValidStream; infer_instance

/-- processJSONFile (import.go lines 276-291) after JSON decoding: the loop
that partitions the decoded records into validData and a skipped count. -/
def processJSONFile (data : List SpotifyStreamingData) :
    List SpotifyStreamingData × Nat :=
  data.foldl
    (fun acc stream =>
      if isValidStream stream then (acc.1 ++ [stream], acc.2)
      else (acc.1, acc.2 + 1))
    ([], 0)

/-! ## Identifier derivation (import.go lines 547-574) -/

/-- extractTrackIDFromURI (import.go lines 547-558): split the URI on ":",
require at least three segments with head "spotify" and second segment
"track", and return the third segment; otherwise the empty id. -/
def extractTrackIDFromURI (uri : String) : String :=
  if uri = "" then ""
  else
    match splitOnChar ':' uri.data with
    | scheme :: typ :: tid :: _ =>
      if scheme = "spotify".data ∧ typ = "track".data then ⟨tid⟩ else ""
    | _ => ""

/-- The name normalization shared by generateArtistID and generateAlbumID:
strings.ReplaceAll(strings.ToLower(name), " ", "_"). -/
def normalizeName (name : String) : String := replaceSpaces (goToLower name)

/-- generateArtistID (import.go lines 560-566). -/
def generateArtistID (artistName : String) : String :=
  if artistName = "" then "" else "artist_" ++ normalizeName artistName

/-- generateAlbumID (import.go lines 568-574). -/
def generateAlbumID (albumName : String) : String :=
  if albumName = "" then "" else "album_" ++ normalizeName albumName

/-! ## Timestamp parsing (utils/time_utils.go) -/

/-- A parsed Go time.Time: broken-down UTC-offset time as produced by
time.Parse on the three layouts the utility tries. -/
structure GoTime where
  year : Nat
  month : Nat
  day : Nat
  hour : Nat
  minute : Nat
  second : Nat
  nanos : Nat
  offsetMin : Int
  deriving DecidableEq, Repr

/-- Value of a decimal digit character, None for other characters. -/
def digitVal (c : Char) : Option Nat :=
  if '0' ≤ c ∧ c ≤ '9' then some (c.toNat - 48) else none

/-- Read exactly two digits. -/
def read2 : List Char → Option (Nat × List Char)
  | a :: b :: rest => do
    let x ← digitVal a
    let y ← digitVal b
    pure (10 * x + y, rest)
  | _ => none

/-- Read exactly four digits. -/
def read4 : List Char → Option (Nat × List Char)
  | a :: b :: c :: d :: rest => do
    let w ← digitVal a
    let x ← digitVal b
    let y ← digitVal c
    let z ← digitVal d
    pure (1000 * w + 100 * x + 10 * y + z, rest)
  | _ => none

/-- Require a literal character. -/
def readLit (c : Char) : List Char → Option (List Char)
  | d :: rest => if d = c then some rest else none
  | [] => none

/-- Collect leading digits. -/
def readDigits : List Char → List Nat × List Char
  | [] => ([], [])
  | c :: cs =>
    match digitVal c with
    | some d => let (ds, rest) := readDigits cs; (d :: ds, rest)
    | none => ([], c :: cs)

/-- Nanoseconds from the digits of a fractional-second field (Go keeps at most
nanosecond precision, truncating further digits). -/
def fracNanos (ds : List Nat) : Nat :=
  (ds.take 9).foldl (fun acc d => acc * 10 + d) 0 * 10 ^ (9 - min ds.length 9)

/-- Optional fractional seconds, as time.Parse accepts after the seconds field
even when the layout carries none: a dot followed by at least one digit. -/
def readFrac : List Char → Option (Nat × List Char)
  | '.' :: rest =>
    match readDigits rest with
    | ([], _) => none
    | (ds, rest') => some (fracNanos ds, rest')
  | rest => some (0, rest)

/-- The common date-time body of the three layouts that time_utils.go tries:
YYYY-MM-DDTHH:MM:SS with optional fractional seconds, with the field range
checks time.Parse performs (per-month day counts are abstracted to 1..31;
no claim exercises them). -/
def readStamp (s : List Char) : Option (GoTime × List Char) := do
  let (y, r1) ← read4 s
  let r2 ← readLit '-' r1
  let (mo, r3) ← read2 r2
  if mo < 1 ∨ 12 < mo then none else
  let r4 ← readLit '-' r3
  let (d, r5) ← read2 r4
  if d < 1 ∨ 31 < d then none else
  let r6 ← readLit 'T' r5
  let (h, r7) ← read2 r6
  if 23 < h then none else
  let r8 ← readLit ':' r7
  let (mi, r9) ← read2 r8
  if 59 < mi then none else
  let r10 ← readLit ':' r9
  let (se, r11) ← read2 r10
  if 59 < se then none else
  let (ns, r12) ← readFrac r11
  pure (⟨y, mo, d, h, mi, se, ns, 0⟩, r12)

/-- A numeric or Z offset suffix, as the RFC3339 layout Z07:00 accepts. -/
def readOffset : List Char → Option (Int × List Char)
  | 'Z' :: rest => some (0, rest)
  | '+' :: rest => do
    let (h, r1) ← read2 rest
    if 23 < h then none else
    let r2 ← readLit ':' r1
    let (m, r3) ← read2 r2
    if 59 < m then none else
    pure ((h * 60 + m : Nat), r3)
  | '-' :: rest => do
    let (h, r1) ← read2 rest
    if 23 < h then none else
    let r2 ← readLit ':' r1
    let (m, r3) ← read2 r2
    if 59 < m then none else
    pure (-((h * 60 + m : Nat) : Int), r3)
  | _ => none

/-- time.Parse(time.RFC3339, s): full-offset ISO-8601, offset Z or +-HH:MM,
whole input consumed. -/
def parseRFC3339 (s : List Char) : Option GoTime := do
  let (t, r1) ← readStamp s
  let (off, r2) ← readOffset r1
  if r2 = [] then pure {t with offsetMin := off} else none

/-- time.Parse with layout 2006-01-02T15:04:05Z: a literal Z suffix and no
numeric offset (the Spotify extended-history format). -/
def parseExtendedHistory (s : List Char) : Option GoTime := do
  let (t, r1) ← readStamp s
  let r2 ← readLit 'Z' r1
  if r2 = [] then pure t else none

/-- time.Parse with layout 2006-01-02T15:04:05: a bare local datetime, which
the utility then interprets as UTC. -/
def parseBareDatetime (s : List Char) : Option GoTime := do
  let (t, r1) ← readStamp s
  if r1 = [] then pure t else none

/-- ParseSpotifyTimestampToLocal (time_utils.go lines 13-31): try the three
layouts in order, first success wins, error when all fail.  The Go .Local()
and .UTC().Local() calls relocate the time.Time without changing its instant,
so the model returns the parsed time itself. -/
def ParseSpotifyTimestampToLocal (s : List Char) : Except String GoTime :=
  match parseRFC3339 s with
  | some t => .ok t
  | none =>
    match parseExtendedHistory s with
    | some t => .ok t
    | none =>
      match parseBareDatetime s with
      | some t => .ok t
      | none => .error "unable to parse timestamp"

/-- Days from 1970-01-01 of a civil date (the standard days-from-civil
computation, matching Go's internal calendar). -/
def daysFromCivil (y : Int) (m d : Nat) : Int :=
  let y' : Int := if m ≤ 2 then y - 1 else y
  let era : Int := Int.fdiv y' 400
  let yoe : Int := y' - era * 400
  let mp : Nat := (m + 9) % 12
  let doy : Int := (153 * mp + 2) / 5 + d - 1
  let doe : Int := yoe * 365 + yoe / 4 - yoe / 100 + doy
  era * 146097 + doe - 719468

/-- time.Time.UnixMilli of a parsed time. -/
def GoTime.unixMilli (t : GoTime) : Int :=
  (daysFromCivil t.year t.month t.day * 86400
      + (t.hour * 3600 + t.minute * 60 + t.second : Nat)
      - t.offsetMin * 60) * 1000
    + t.nanos / 1000000

/-! ## Relational model (database/init.sql plus the listening_history
migration).  A nullable column is an Option; a TIMESTAMP is an instant in
epoch milliseconds. -/

/-- A row of the artists table. -/
structure ArtistRow where
  id : String
  name : String
  genres : List String
  popularity : Int
  imageUrl : Option String
  deriving DecidableEq, Repr

/-- A row of the albums table. -/
structure AlbumRow where
  id : String
  name : String
  releaseDate : Option String
  imageUrl : Option String
  deriving DecidableEq, Repr

/-- A row of the tracks table. -/
structure TrackRow where
  id : String
  name : String
  albumId : Option String
  durationMs : Int
  popularity : Int
  previewUrl : Option String
  isrc : Option String
  deriving DecidableEq, Repr

/-- A row of the listening_history table (after the migration adding the
bulk-import provenance columns, each with its schema default). -/
structure HistoryRow where
  userId : String
  trackId : String
  playedAt : Int
  listenedDurationMs : Int
  listeningPercentage : Int
  contextType : String
  contextUri : String
  platform : Option String
  country : Option String
  shuffle : Bool
  skipped : Bool
  offline : Bool
  incognitoMode : Bool
  reasonStart : Option String
  reasonEnd : Option String
  deriving DecidableEq, Repr

/-- The database state the ingestion pipeline writes. -/
structure DB where
  artists : List ArtistRow
  albums : List AlbumRow
  tracks : List TrackRow
  trackArtists : List (String × String)
  listeningHistory : List HistoryRow
  deriving DecidableEq, Repr

/-- The empty database. -/
def DB.empty : DB := ⟨[], [], [], [], []⟩

/-- The unique constraints database/init.sql declares on listening_history:
only the surrogate PRIMARY KEY (id).  Neither init.sql (lines 67-75) nor the
migration adds a unique index over any other column set. -/
def listeningHistoryUniqueConstraints : List (List String) := [["id"]]

/-- The conflict target named by the listening_history INSERT of
saveToDatabase (import.go lines 438-442). -/
def importHistoryConflictTarget : List String :=
  ["user_id", "track_id", "played_at"]

/-- Number of listening_history rows carrying a given
(user_id, track_id, played_at) triple. -/
def countTriple (db : DB) (userId trackId : String) (playedAt : Int) : Nat :=
  (db.listeningHistory.filter
    (fun r => r.userId = userId ∧ r.trackId = trackId ∧ r.playedAt = playedAt)).length

/-! ## The bulk-import write path (import.go saveToDatabase, lines 381-545) -/

/-- INSERT INTO artists ... ON CONFLICT (id) DO NOTHING. -/
def insertArtistIfAbsent (row : ArtistRow) (db : DB) : DB :=
  if db.artists.any (fun r => r.id = row.id) then db
  else {db with artists := db.artists ++ [row]}

/-- INSERT INTO albums ... ON CONFLICT (id) DO NOTHING. -/
def insertAlbumIfAbsent (row : AlbumRow) (db : DB) : DB :=
  if db.albums.any (fun r => r.id = row.id) then db
  else {db with albums := db.albums ++ [row]}

/-- INSERT INTO tracks ... ON CONFLICT (id) DO NOTHING. -/
def insertTrackIfAbsent (row : TrackRow) (db : DB) : DB :=
  if db.tracks.any (fun r => r.id = row.id) then db
  else {db with tracks := db.tracks ++ [row]}

/-- INSERT INTO track_artists ... ON CONFLICT (track_id, artist_id) DO
NOTHING (the join table's primary key). -/
def insertTrackArtistIfAbsent (trackId artistId : String) (db : DB) : DB :=
  if db.trackArtists.any (fun p => p = (trackId, artistId)) then db
  else {db with trackArtists := db.trackArtists ++ [(trackId, artistId)]}

/-- The listening_history INSERT of the import path with the semantics its
ON CONFLICT (user_id, track_id, played_at) DO NOTHING clause claims: insert
unless a row with the triple exists.  (The schema piece of that contract is
settled separately: listeningHistoryUniqueConstraints does not contain
importHistoryConflictTarget, so PostgreSQL would actually reject this
statement; see the C1 theorems.) -/
def insertHistoryOnConflictTriple (row : HistoryRow) (db : DB) : DB :=
  if countTriple db row.userId row.trackId row.playedAt > 0 then db
  else {db with listeningHistory := db.listeningHistory ++ [row]}

/-- SELECT EXISTS(SELECT 1 FROM tracks WHERE id = $1) (import.go trackExists,
lines 576-580, evaluated inside the import transaction). -/
def trackExists (trackId : String) (db : DB) : Bool :=
  db.tracks.any (fun r => r.id = trackId)

/-- The mutable state of the saveToDatabase loop: the transaction's view of
the database plus the three inserted-this-call id sets. -/
structure ImportState where
  db : DB
  artistsInserted : List String
  albumsInserted : List String
  tracksInserted : List String
  deriving Repr

/-- The guarded artist insert of the import loop (import.go lines 459-466). -/
def importArtistStep (artistID artistName : String) (st : ImportState) :
    ImportState :=
  if artistID ∉ st.artistsInserted ∧ artistName ≠ "" then
    { st with
      db := insertArtistIfAbsent ⟨artistID, artistName, [], 0, none⟩ st.db
      artistsInserted := st.artistsInserted ++ [artistID] }
  else st

/-- The guarded album insert of the import loop (import.go lines 468-475). -/
def importAlbumStep (albumID albumName : String) (st : ImportState) :
    ImportState :=
  if albumID ∉ st.albumsInserted ∧ albumName ≠ "" then
    { st with
      db := insertAlbumIfAbsent ⟨albumID, albumName, none, none⟩ st.db
      albumsInserted := st.albumsInserted ++ [albumID] }
  else st

/-- The guarded track insert of the import loop (import.go lines 477-489). -/
def importTrackStep (trackID trackName albumID albumName : String)
    (st : ImportState) : ImportState :=
  if trackID ∉ st.tracksInserted ∧ trackName ≠ "" then
    let albumIdForTrack := if albumName ≠ "" then some albumID else none
    { st with
      db := insertTrackIfAbsent
        ⟨trackID, trackName, albumIdForTrack, 0, 0, none, none⟩ st.db
      tracksInserted := st.tracksInserted ++ [trackID] }
  else st

/-- The guarded track-artist link insert of the import loop (import.go lines
491-496). -/
def importLinkStep (trackID artistID : String) (st : ImportState) :
    ImportState :=
  if trackID ≠ "" ∧ artistID ≠ "" then
    { st with db := insertTrackArtistIfAbsent trackID artistID st.db }
  else st

/-- The listening_history row the import loop inserts for a record
(import.go lines 514-530). -/
def importHistoryRow (userID trackID : String) (playedAt : Int)
    (stream : SpotifyStreamingData) : HistoryRow :=
  { userId := userID
    trackId := trackID
    playedAt := playedAt
    listenedDurationMs := stream.msPlayed
    listeningPercentage := 0
    contextType := if stream.reasonStart ≠ "" then stream.reasonStart else "unknown"
    contextUri := stream.spotifyTrackURI
    platform := some stream.platform
    country := some stream.connCountry
    shuffle := stream.shuffle
    skipped := stream.skipped.getD false
    offline := stream.offline
    incognitoMode := stream.incognitoMode
    reasonStart := some stream.reasonStart
    reasonEnd := some stream.reasonEnd }

/-- The guarded listening_history insert of the import loop (import.go lines
498-534): only when the track id is nonempty and the track row exists. -/
def importHistoryStep (userID trackID : String) (playedAt : Int)
    (stream : SpotifyStreamingData) (st : ImportState) : ImportState :=
  if trackID ≠ "" ∧ (trackID ∈ st.tracksInserted ∨ trackExists trackID st.db) then
    let row := importHistoryRow userID trackID playedAt stream
    { st with db := insertHistoryOnConflictTriple row st.db }
  else st

/-- One iteration of the record loop of saveToDatabase (import.go lines
448-535): derive ids, parse the timestamp (an unparseable one drops the
record), then run the five guarded inserts in order. -/
def saveRecordStep (userID : String) (st : ImportState)
    (stream : SpotifyStreamingData) : ImportState :=
  let trackID := extractTrackIDFromURI stream.spotifyTrackURI
  let artistID := generateArtistID stream.artistName
  let albumID := generateAlbumID stream.albumName
  match ParseSpotifyTimestampToLocal stream.ts.data with
  | .error _ => st
  | .ok t =>
    let st := importArtistStep artistID stream.artistName st
    let st := importAlbumStep albumID stream.albumName st
    let st := importTrackStep trackID stream.trackName albumID stream.albumName st
    let st := importLinkStep trackID artistID st
    importHistoryStep userID trackID t.unixMilli stream st

/-- saveToDatabase (import.go lines 381-545): fold the record loop over the
batch inside one transaction (all statements succeed in the model, so the
final commit keeps every effect). -/
def saveToDatabase (userID : String) (data : List SpotifyStreamingData)
    (db : DB) : DB :=
  (data.foldl (saveRecordStep userID) ⟨db, [], [], []⟩).db

/-- The user-resolution prologue of ImportSpotifyData (import.go lines
85-100): an authenticated user id wins; otherwise SELECT id FROM users
LIMIT 1, which fails only when the users table is empty. -/
def resolveImportUserID (ctxUserID : Option String) (usersTable : List String) :
    Except String String :=
  match ctxUserID with
  | some u => .ok u
  | none =>
    match usersTable.head? with
    | some u => .ok u
    | none => .error "No user found for import"

/-! ## The live tracking service (services/tracking.go) -/

/-- A SpotifyArtist as decoded from the artist-detail endpoint (only the
fields the tracking service reads). -/
structure SpotifyArtist where
  id : String
  name : String
  genres : List String
  popularity : Int
  images : List String
  deriving DecidableEq, Repr

/-- A PlaybackContext (tracking.go lines 51-54). -/
structure PlaybackContext where
  type : String
  uri : String
  deriving DecidableEq, Repr

/-- A reference to an artist inside a currently-playing track payload. -/
structure ArtistRef where
  id : String
  name : String
  deriving DecidableEq, Repr

/-- A SpotifyAlbum inside a currently-playing track payload. -/
structure SpotifyAlbum where
  id : String
  name : String
  releaseDate : String
  images : List String
  deriving DecidableEq, Repr

/-- CurrentlyPlayingTrack (tracking.go lines 38-49). -/
structure CurrentlyPlayingTrack where
  id : String
  name : String
  artists : List ArtistRef
  album : SpotifyAlbum
  durationMs : Int
  progressMs : Int
  isPlaying : Bool
  popularity : Int
  previewUrl : Option String
  context : Option PlaybackContext
  deriving DecidableEq, Repr

/-- UserTracking (tracking.go lines 28-36): the in-memory session of one
tracked user.  Times are wall-clock epoch milliseconds. -/
structure UserTracking where
  userId : String
  spotifyToken : String
  lastTrack : Option CurrentlyPlayingTrack
  sessionStart : Int
  totalPlayTime : Int
  lastUpdated : Int
  isActive : Bool
  deriving DecidableEq, Repr

/-- The Spotify artist-detail endpoint (GetArtistDetails), modelled as a
function from artist id to a decoded artist; None is a failed call. -/
def ArtistLookup := String → Option SpotifyArtist

/-- The cheap fallback statement of saveArtistWithDetails (tracking.go lines
604-610): INSERT INTO artists (id, name, popularity) ... ON CONFLICT (id) DO
UPDATE SET name, popularity.  A conflicting row keeps its genres and image;
a fresh row gets the genres column's default (no genres). -/
def upsertArtistBasic (artistID artistName : String) (popularity : Int)
    (db : DB) : DB :=
  if db.artists.any (fun r => r.id = artistID) then
    { db with artists := db.artists.map (fun r =>
        if r.id = artistID then
          { r with name := artistName, popularity := popularity }
        else r) }
  else
    { db with artists :=
        db.artists ++ [⟨artistID, artistName, [], popularity, none⟩] }

/-- The full enrichment statement of saveArtistWithDetails (tracking.go lines
629-637): INSERT INTO artists (id, name, genres, popularity, image_url) ...
ON CONFLICT (id) DO UPDATE SET name, genres, popularity, image_url. -/
def upsertArtistFull (artistID name : String) (genres : List String)
    (popularity : Int) (imageURL : String) (db : DB) : DB :=
  if db.artists.any (fun r => r.id = artistID) then
    { db with artists := db.artists.map (fun r =>
        if r.id = artistID then
          { r with name := name, genres := genres,
                   popularity := popularity, imageUrl := some imageURL }
        else r) }
  else
    { db with artists := db.artists ++
        [⟨artistID, name, genres, popularity, some imageURL⟩] }

/-- saveArtistWithDetails (tracking.go lines 576-644).  First query the
stored genre count (array_length is NULL for a missing row or an empty
array); with at least one stored genre, skip the upstream call and only run
UPDATE artists SET popularity = $2 WHERE id = $1 AND popularity != $2.
Otherwise fetch artist details; on upstream failure fall back to the cheap
name+popularity upsert, else upsert name, genres, popularity and image. -/
def saveArtistWithDetails (getArtistDetails : ArtistLookup)
    (artistID artistName : String) (popularity : Int) (db : DB) : DB :=
  let storedGenres :=
    match db.artists.find? (fun r => r.id = artistID) with
    | some row => row.genres
    | none => []
  if storedGenres ≠ [] then
    { db with artists := db.artists.map (fun r =>
        if r.id = artistID ∧ r.popularity ≠ popularity then
          { r with popularity := popularity }
        else r) }
  else
    match getArtistDetails artistID with
    | none => upsertArtistBasic artistID artistName popularity db
    | some details =>
      let imageURL := (details.images.head?).getD ""
      upsertArtistFull artistID details.name details.genres
        details.popularity imageURL db

/-- The release-date normalization both save paths perform: a bare
four-character year becomes January 1 of that year (tracking.go lines
291-302). -/
def normalizeReleaseDate (releaseDate : String) : Option String :=
  if releaseDate ≠ "" then
    if releaseDate.length = 4 then some (releaseDate ++ "-01-01")
    else some releaseDate
  else none

/-- The album upsert of the save paths: INSERT ... ON CONFLICT (id) DO
UPDATE SET name, image_url (release_date is not refreshed on conflict). -/
def upsertAlbumNameImage (albumId albumName : String)
    (releaseDate : Option String) (imageURL : String) (db : DB) : DB :=
  if db.albums.any (fun r => r.id = albumId) then
    { db with albums := db.albums.map (fun r =>
        if r.id = albumId then
          { r with name := albumName, imageUrl := some imageURL }
        else r) }
  else
    { db with albums :=
        db.albums ++ [⟨albumId, albumName, releaseDate, some imageURL⟩] }

/-- The track upsert of the save paths: INSERT ... ON CONFLICT (id) DO
UPDATE SET name, duration_ms, popularity, preview_url (album_id is not
refreshed on conflict). -/
def upsertTrackFields (trackId trackName : String) (albumId : String)
    (durationMs popularity : Int) (previewUrl : Option String) (db : DB) : DB :=
  if db.tracks.any (fun r => r.id = trackId) then
    { db with tracks := db.tracks.map (fun r =>
        if r.id = trackId then
          { r with name := trackName, durationMs := durationMs
                   popularity := popularity, previewUrl := previewUrl }
        else r) }
  else
    { db with tracks := db.tracks ++
        [⟨trackId, trackName, some albumId, durationMs, popularity,
          previewUrl, none⟩] }

/-- The album, track and track-artist-link block both saveListeningSession
(tracking.go lines 285-343) and saveRecentlyPlayedTrack (lines 461-519 of
the full service) run verbatim for a currently-playing track payload. -/
def saveTrackMetadata (ct : CurrentlyPlayingTrack) (db : DB) : DB :=
  let imageURL := (ct.album.images.head?).getD ""
  let releaseDate := normalizeReleaseDate ct.album.releaseDate
  let db := upsertAlbumNameImage ct.album.id ct.album.name releaseDate imageURL db
  let db := upsertTrackFields ct.id ct.name ct.album.id ct.durationMs
    ct.popularity ct.previewUrl db
  ct.artists.foldl (fun d a => insertTrackArtistIfAbsent ct.id a.id d) db

/-- The listening_history row the live flush INSERT produces for a session:
only user_id, track_id, played_at (the session start), context_type and
context_uri are listed in the statement, so every other column takes its
schema default — in particular listened_duration_ms is 0. -/
def liveFlushRow (tracking : UserTracking) (ct : CurrentlyPlayingTrack) :
    HistoryRow :=
  { userId := tracking.userId
    trackId := ct.id
    playedAt := tracking.sessionStart
    listenedDurationMs := 0
    listeningPercentage := 0
    contextType := (ct.context.map PlaybackContext.type).getD ""
    contextUri := (ct.context.map PlaybackContext.uri).getD ""
    platform := none
    country := none
    shuffle := false
    skipped := false
    offline := false
    incognitoMode := false
    reasonStart := none
    reasonEnd := none }

/-- saveListeningSession (tracking.go lines 263-369): drop sessions without
a track or with accumulated play time under 30000 ms; otherwise enrich every
artist, upsert album, track and links, and append the listening_history row.
The INSERT (lines 352-355) lists only user_id, track_id, played_at,
context_type, context_uri and created_at, so listened_duration_ms and every
provenance column keep their schema defaults; it carries no ON CONFLICT
clause, and the schema declares no unique constraint over the triple, so the
row is appended unconditionally. -/
def saveListeningSession (getArtistDetails : ArtistLookup)
    (tracking : UserTracking) (db : DB) : DB :=
  match tracking.lastTrack with
  | none => db
  | some ct =>
    if tracking.totalPlayTime < 30000 then db
    else
      let db := ct.artists.foldl
        (fun d a => saveArtistWithDetails getArtistDetails a.id a.name ct.popularity d) db
      let db := saveTrackMetadata ct db
      { db with listeningHistory := db.listeningHistory ++ [liveFlushRow tracking ct] }

/-- StartTracking (tracking.go lines 66-81) at wall-clock now. -/
def startTracking (userID spotifyToken : String) (now : Int) : UserTracking :=
  { userId := userID
    spotifyToken := spotifyToken
    lastTrack := none
    sessionStart := now
    totalPlayTime := 0
    lastUpdated := now
    isActive := true }

/-- updateUserTracking (tracking.go lines 218-261) after a successful
currently-playing poll: flush on track loss or track change, then accumulate
the wall-clock delta when the same track is playing — only a delta strictly
between 0 and 2 minutes is added — and always stamp lastUpdated. -/
def updateUserTracking (getArtistDetails : ArtistLookup)
    (currentTrack : Option CurrentlyPlayingTrack) (now : Int)
    (tracking : UserTracking) (db : DB) : UserTracking × DB :=
  match currentTrack with
  | none =>
    let (tracking, db) :=
      match tracking.lastTrack with
      | some _ =>
        ({ tracking with lastTrack := none },
          saveListeningSession getArtistDetails tracking db)
      | none => (tracking, db)
    ({ tracking with lastUpdated := now }, db)
  | some ct =>
    let trackChanged : Bool :=
      match tracking.lastTrack with
      | none => true
      | some lt => lt.id != ct.id
    let (tracking, db) :=
      if trackChanged then
        let db :=
          match tracking.lastTrack with
          | some _ => saveListeningSession getArtistDetails tracking db
          | none => db
        ({ tracking with lastTrack := some ct, sessionStart := now,
                         totalPlayTime := 0 }, db)
      else (tracking, db)
    let tracking :=
      if ct.isPlaying then
        let timeDiff := now - tracking.lastUpdated
        if 0 < timeDiff ∧ timeDiff < 120000 then
          { tracking with totalPlayTime := tracking.totalPlayTime + timeDiff }
        else tracking
      else tracking
    ({ tracking with lastUpdated := now }, db)

/-- StopTracking (tracking.go lines 83-99) for a session found in the active
map: mark inactive, flush when a track is current, and remove the session.
Returns the remaining sessions for the user (none) and the database. -/
def stopTracking (getArtistDetails : ArtistLookup)
    (sessions : List (String × UserTracking)) (userID : String) (db : DB) :
    List (String × UserTracking) × DB :=
  match sessions.find? (fun p => p.1 = userID) with
  | none => (sessions, db)
  | some (_, tracking) =>
    let tracking := { tracking with isActive := false }
    let db :=
      match tracking.lastTrack with
      | some _ => saveListeningSession getArtistDetails tracking db
      | none => db
    (sessions.filter (fun p => ¬ p.1 = userID), db)

/-! ## The catch-up sync walker (full tracking service, syncUserRecentlyPlayed
lines 404-501, and saveRecentlyPlayedTrack lines 503-631) -/

/-- One item of a recently-played page (tracking.go lines 145-148). -/
structure RecentlyPlayedItem where
  track : Option CurrentlyPlayingTrack
  playedAt : String
  deriving DecidableEq, Repr

/-- The recently-played endpoint, modelled as a pure page function from
(after-timestamp, limit) to the returned items; upstream transport errors are
out of scope for the walker claims (an erroring fetch simply ends the walk
exactly like an empty page). -/
def PageFetch := Int → Nat → List RecentlyPlayedItem

/-- The dedup key the walker builds for an item: item.Track.ID + "|" +
item.PlayedAt (line 442).  Items without a track never reach the key. -/
def itemKey (track : CurrentlyPlayingTrack) (item : RecentlyPlayedItem) : String :=
  track.id ++ "|" ++ item.playedAt

/-- One requested page of the walk, kept for specification purposes. -/
structure SyncPage where
  after : Int
  limit : Nat
  items : List RecentlyPlayedItem
  deriving Repr

/-- Why the fetch loop of syncUserRecentlyPlayed stopped. -/
inductive SyncStop where
  | emptyPage
  | shortPage
  | ceilingHit
  | outOfFuel
  deriving DecidableEq, Repr

/-- The mutable state of the fetch loop (lines 408-414). -/
structure SyncLoopState where
  totalFetched : Nat
  after : Int
  acc : List RecentlyPlayedItem
  keys : List String
  deriving Repr

/-- The per-batch dedup accumulation (lines 436-449): skip items without a
track, record first occurrences of each (track id, played-at) key. -/
def accumulateBatch (items : List RecentlyPlayedItem)
    (acc : List RecentlyPlayedItem) (keys : List String) :
    List RecentlyPlayedItem × List String :=
  items.foldl
    (fun p item =>
      match item.track with
      | none => p
      | some track =>
        let key := itemKey track item
        if key ∈ p.2 then p else (p.1 ++ [item], p.2 ++ [key]))
    (acc, keys)

/-- The boundary for the next page (lines 460-467): the RFC3339-parsed
UnixMilli of the last item's timestamp, keeping the old boundary when the
page is empty or the timestamp does not parse. -/
def nextBoundary (page : SyncPage) : Int :=
  match page.items.getLast? with
  | none => page.after
  | some lastItem =>
    match parseRFC3339 lastItem.playedAt.data with
    | some t => t.unixMilli
    | none => page.after

/-- The fetch loop of syncUserRecentlyPlayed (lines 412-468): while fewer
than 100 items were fetched, request min(50, 100 - totalFetched) items after
the boundary; stop on an empty page, a short page, or the 100-item ceiling.
Besides the loop state it returns the trace of issued page requests (for
specification purposes) and the stop reason.  The fuel only bounds the
recursion; 101 units are never exhausted because every continuing iteration
fetches at least one item (see the C5 theorem). -/
def syncFetchBatches (fetch : PageFetch) :
    Nat → SyncLoopState → SyncLoopState × List SyncPage × SyncStop
  | 0, st => (st, [], .outOfFuel)
  | fuel + 1, st =>
    if st.totalFetched < 100 then
      let limit := if st.totalFetched + 50 > 100 then 100 - st.totalFetched else 50
      let items := fetch st.after limit
      let page : SyncPage := ⟨st.after, limit, items⟩
      if items.length = 0 then (st, [page], .emptyPage)
      else
        let accKeys := accumulateBatch items st.acc st.keys
        let st' : SyncLoopState :=
          { totalFetched := st.totalFetched + items.length
            after := st.after, acc := accKeys.1, keys := accKeys.2 }
        if items.length < limit then (st', [page], .shortPage)
        else
          let r := syncFetchBatches fetch fuel { st' with after := nextBoundary page }
          (r.1, page :: r.2.1, r.2.2)
    else (st, [], .ceilingHit)

/-- The listening_history row the catch-up sync INSERT produces: like the
live flush it lists only user_id, track_id, played_at, context_type and
context_uri, so listened_duration_ms keeps its schema default 0. -/
def syncedRow (userID : String) (track : CurrentlyPlayingTrack) (t : GoTime) :
    HistoryRow :=
  { userId := userID
    trackId := track.id
    playedAt := t.unixMilli
    listenedDurationMs := 0
    listeningPercentage := 0
    contextType := (track.context.map PlaybackContext.type).getD ""
    contextUri := (track.context.map PlaybackContext.uri).getD ""
    platform := none
    country := none
    shuffle := false
    skipped := false
    offline := false
    incognitoMode := false
    reasonStart := none
    reasonEnd := none }

/-- saveRecentlyPlayedTrack (lines 503-631): skip items without a track or
with an unparseable RFC3339 timestamp, skip when the (user, track, played_at)
triple already has a row, otherwise enrich artists, upsert album/track/links
and append the history row.  Like the live flush, the history INSERT (lines
614-617) lists no duration or provenance columns and no ON CONFLICT clause. -/
def saveRecentlyPlayedTrack (getArtistDetails : ArtistLookup)
    (userID : String) (item : RecentlyPlayedItem) (db : DB) : DB :=
  match item.track with
  | none => db
  | some track =>
    match parseRFC3339 item.playedAt.data with
    | none => db
    | some t =>
      if countTriple db userID track.id t.unixMilli > 0 then db
      else
        let db := track.artists.foldl
          (fun d a => saveArtistWithDetails getArtistDetails a.id a.name track.popularity d) db
        let db := saveTrackMetadata track db
        { db with listeningHistory :=
            db.listeningHistory ++ [syncedRow userID track t] }

/-- The chronological record phase (lines 472-498): iterate the accumulated
items oldest first (the upstream returns newest first, hence the reversal),
skip unparseable timestamps, and save items whose triple has no row yet. -/
def recordSyncedTracks (getArtistDetails : ArtistLookup) (userID : String)
    (items : List RecentlyPlayedItem) (db : DB) : DB :=
  items.reverse.foldl
    (fun d item =>
      match item.track with
      | none => d
      | some track =>
        match parseRFC3339 item.playedAt.data with
        | none => d
        | some t =>
          if countTriple d userID track.id t.unixMilli = 0 then
            saveRecentlyPlayedTrack getArtistDetails userID item d
          else d)
    db

/-- syncUserRecentlyPlayed (lines 404-501): run the fetch loop from boundary
0 with the 100-item ceiling, then record the deduplicated items.  The final
loop state, page trace and stop reason are returned for specification
purposes. -/
def syncUserRecentlyPlayed (fetch : PageFetch) (getArtistDetails : ArtistLookup)
    (userID : String) (db : DB) :
    DB × SyncLoopState × List SyncPage × SyncStop :=
  let r := syncFetchBatches fetch 101 ⟨0, 0, [], []⟩
  (recordSyncedTracks getArtistDetails userID r.1.acc db, r.1, r.2.1, r.2.2)

/-- The key of an accumulated item (every accumulated item carries a track;
an item without one maps to the empty key, which the walker never stores). -/
def keyOf (item : RecentlyPlayedItem) : String :=
  match item.track with
  | some track => itemKey track item
  | none => ""

/-- The boundary-chaining specification of a page trace: the first request
uses the given boundary and every later request uses the previous page's
nextBoundary. -/
def chainFrom (after : Int) : List SyncPage → Prop
  | [] => True
  | page :: pages => page.after = after ∧ chainFrom (nextBoundary page) pages

/-- Rejoin split parts with the separator (inverse of splitOnChar, used to
state the URI-shape characterization). -/
def joinSep (sep : Char) : List (List Char) → List Char
  | [] => []
  | [w] => w
  | w :: ws => w ++ sep :: joinSep sep ws

/-! ## Concrete inputs for counterexamples and witnesses -/

/-- A currently-playing payload for the Scenario A track. -/
def songA : CurrentlyPlayingTrack :=
  { id := "A", name := "Song A", artists := [⟨"ar1", "Artist One"⟩],
    album := ⟨"al1", "Album One", "1986", []⟩, durationMs := 200000,
    progressMs := 0, isPlaying := true, popularity := 50,
    previewUrl := none, context := none }

/-- A currently-playing payload for the Scenario A follow-up track. -/
def songB : CurrentlyPlayingTrack :=
  { songA with id := "B", name := "Song B" }

/-- An artist-detail endpoint whose calls all fail. -/
def noLookup : ArtistLookup := fun _ => none

/-- Scenario A with the first poll T1 milliseconds after Start: ticks at T1
(Song A playing), T1+20000 (Song A playing) and T1+40000 (Song B), from an
empty database. -/
def scenarioA (T1 : Int) : (UserTracking × DB) × UserTracking × DB :=
  let st0 := startTracking "u1" "tok" 0
  let s1 := updateUserTracking noLookup (some songA) T1 st0 DB.empty
  let s2 := updateUserTracking noLookup (some songA) (T1 + 20000) s1.1 s1.2
  (s2, updateUserTracking noLookup (some songB) (T1 + 40000) s2.1 s2.2)

/-- A session sitting on an accumulated gap boundary: same track still
reported playing exactly two minutes after the previous tick. -/
def gapTracking : UserTracking :=
  { userId := "u1", spotifyToken := "tok", lastTrack := some songA,
    sessionStart := 0, totalPlayTime := 0, lastUpdated := 0, isActive := true }

/-- A closed session above the dwell threshold, used to flush the same
(user, track, played_at) triple twice. -/
def dupSession : UserTracking :=
  { userId := "u1", spotifyToken := "tok", lastTrack := some songA,
    sessionStart := 1000, totalPlayTime := 40000, lastUpdated := 0,
    isActive := true }

/-- A database whose artist row already carries three genres. -/
def dbWithGenres : DB :=
  { DB.empty with artists := [⟨"ar1", "Artist One", ["g1", "g2", "g3"], 10, none⟩] }

/-- An artist-detail endpoint returning one genre and popularity 77. -/
def oneGenreLookup : ArtistLookup :=
  fun _ => some ⟨"ar1", "Artist One", ["g9"], 77, []⟩

/-- A bulk-export record passing the validity filter. -/
def validStream : SpotifyStreamingData :=
  { ts := "2024-01-02T03:04:05Z", platform := "ios", msPlayed := 60000,
    connCountry := "BR", trackName := "Song A", artistName := "Artist One",
    albumName := "Album One", spotifyTrackURI := "spotify:track:tA",
    reasonStart := "clickrow", reasonEnd := "trackdone", shuffle := false,
    skipped := some false, offline := false, incognitoMode := false }

/-- A bulk-export record one millisecond under the duration threshold. -/
def shortStream : SpotifyStreamingData :=
  { validStream with msPlayed := 4999 }

/-- A bulk-export record with an empty artist name. -/
def namelessStream : SpotifyStreamingData :=
  { validStream with artistName := "" }

/-- A bulk-export record whose timestamp no layout parses. -/
def badStampStream : SpotifyStreamingData :=
  { validStream with ts := "02/01/2024 03:04" }

/-- A one-item recently-played page for the sync walker. -/
def demoItem : RecentlyPlayedItem :=
  { track := some { songA with id := "tA" }, playedAt := "2024-01-02T03:04:05Z" }

/-- A recently-played endpoint that always returns the same single item. -/
def demoFetch : PageFetch := fun _ _ => [demoItem]

/-! ## Helper lemmas: the metadata upserts never touch listening_history -/

@[simp] lemma insertArtistIfAbsent_history (row : ArtistRow) (db : DB) :
    (insertArtistIfAbsent row db).listeningHistory = db.listeningHistory := by
  unfold insertArtistIfAbsent; split <;> rfl

@[simp] lemma insertAlbumIfAbsent_history (row : AlbumRow) (db : DB) :
    (insertAlbumIfAbsent row db).listeningHistory = db.listeningHistory := by
  unfold insertAlbumIfAbsent; split <;> rfl

@[simp] lemma insertTrackIfAbsent_history (row : TrackRow) (db : DB) :
    (insertTrackIfAbsent row db).listeningHistory = db.listeningHistory := by
  unfold insertTrackIfAbsent; split <;> rfl

@[simp] lemma insertTrackArtistIfAbsent_history (t a : String) (db : DB) :
    (insertTrackArtistIfAbsent t a db).listeningHistory = db.listeningHistory := by
  unfold insertTrackArtistIfAbsent; split <;> rfl

@[simp] lemma upsertArtistBasic_history (i n : String) (p : Int) (db : DB) :
    (upsertArtistBasic i n p db).listeningHistory = db.listeningHistory := by
  unfold upsertArtistBasic; split <;> rfl

@[simp] lemma upsertArtistFull_history (i n : String) (gs : List String)
    (p : Int) (img : String) (db : DB) :
    (upsertArtistFull i n gs p img db).listeningHistory = db.listeningHistory := by
  unfold upsertArtistFull; split <;> rfl

@[simp] lemma saveArtistWithDetails_history (g : ArtistLookup) (i n : String)
    (p : Int) (db : DB) :
    (saveArtistWithDetails g i n p db).listeningHistory = db.listeningHistory := by
  unfold saveArtistWithDetails
  split <;> dsimp only <;> split
  case isTrue => rfl
  case isFalse => split <;> simp
  case isTrue => rfl
  case isFalse => split <;> simp

@[simp] lemma foldl_saveArtistWithDetails_history (g : ArtistLookup) (p : Int)
    (artists : List ArtistRef) (db : DB) :
    (artists.foldl (fun d a => saveArtistWithDetails g a.id a.name p d)
        db).listeningHistory = db.listeningHistory := by
  induction artists generalizing db with
  | nil => rfl
  | cons a as ih => simp [ih]

@[simp] lemma upsertAlbumNameImage_history (i n : String) (rd : Option String)
    (img : String) (db : DB) :
    (upsertAlbumNameImage i n rd img db).listeningHistory = db.listeningHistory := by
  unfold upsertAlbumNameImage; split <;> rfl

@[simp] lemma upsertTrackFields_history (i n a : String) (d p : Int)
    (pv : Option String) (db : DB) :
    (upsertTrackFields i n a d p pv db).listeningHistory = db.listeningHistory := by
  unfold upsertTrackFields; split <;> rfl

@[simp] lemma foldl_insertTrackArtist_history (tid : String)
    (artists : List ArtistRef) (db : DB) :
    (artists.foldl (fun d a => insertTrackArtistIfAbsent tid a.id d)
        db).listeningHistory = db.listeningHistory := by
  induction artists generalizing db with
  | nil => rfl
  | cons a as ih => simp [ih]

@[simp] lemma saveTrackMetadata_history (ct : CurrentlyPlayingTrack) (db : DB) :
    (saveTrackMetadata ct db).listeningHistory = db.listeningHistory := by
  unfold saveTrackMetadata
  simp

/-! ## Helper lemmas: the live flush -/

lemma saveListeningSession_below (g : ArtistLookup) (tr : UserTracking)
    (db : DB) (ct : CurrentlyPlayingTrack) (h : tr.lastTrack = some ct)
    (hlt : tr.totalPlayTime < 30000) :
    saveListeningSession g tr db = db := by
  unfold saveListeningSession
  rw [h]
  dsimp only
  rw [if_pos hlt]

lemma saveListeningSession_flush (g : ArtistLookup) (tr : UserTracking)
    (db : DB) (ct : CurrentlyPlayingTrack) (h : tr.lastTrack = some ct)
    (hge : 30000 ≤ tr.totalPlayTime) :
    (saveListeningSession g tr db).listeningHistory
      = db.listeningHistory ++ [liveFlushRow tr ct] := by
  unfold saveListeningSession
  rw [h]
  dsimp only
  rw [if_neg (by omega)]
  simp

/-- C1: the schema declares no uniqueness constraint over (user_id,
track_id, played_at) — listening_history's only unique key is its surrogate
primary key — and consequently the live write path, whose INSERT carries no
conflict handling, stores the same (user, track, played_at) event twice when
the same session is flushed twice. -/
theorem C1_no_unique_triple_constraint :
    importHistoryConflictTarget ∉ listeningHistoryUniqueConstraints ∧
    countTriple
      (saveListeningSession noLookup dupSession
        (saveListeningSession noLookup dupSession DB.empty)) "u1" "A" 1000 = 2 := by
  exact ⟨by decide, by decide⟩

/-- C3 counterexample: a same-track playing tick whose delta is exactly the
two-minute ceiling (120000 ms, which does not exceed the ceiling) contributes
zero milliseconds instead of the full delta the claim requires. -/
theorem C3_counterexample_exact_ceiling :
    (updateUserTracking noLookup (some songA) 120000 gapTracking DB.empty).1.totalPlayTime = 0
    ∧ (120000 : Int) - gapTracking.lastUpdated ≤ 120000
    ∧ gapTracking.totalPlayTime = 0 := by
  exact ⟨by decide, by decide, by decide⟩

/-- C3 (amended): on a same-track playing tick, the delta d = now −
lastUpdated is added to accumulated play time iff 0 < d and d is strictly
below the two-minute ceiling; a delta at or above the ceiling contributes
zero (discarded, not clamped), a delta just under it contributes the full
delta, and the tick writes nothing to the database. -/
theorem C3_gap_discard (g : ArtistLookup) (ct lt : CurrentlyPlayingTrack)
    (now : Int) (tr : UserTracking) (db : DB)
    (hlast : tr.lastTrack = some lt) (hid : lt.id = ct.id)
    (hplay : ct.isPlaying = true) :
    ((updateUserTracking g (some ct) now tr db).1.totalPlayTime
        = tr.totalPlayTime +
          (if 0 < now - tr.lastUpdated ∧ now - tr.lastUpdated < 120000
           then now - tr.lastUpdated else 0))
    ∧ (120000 ≤ now - tr.lastUpdated →
        (updateUserTracking g (some ct) now tr db).1.totalPlayTime
          = tr.totalPlayTime)
    ∧ (0 < now - tr.lastUpdated ∧ now - tr.lastUpdated < 120000 →
        (updateUserTracking g (some ct) now tr db).1.totalPlayTime
          = tr.totalPlayTime + (now - tr.lastUpdated))
    ∧ (updateUserTracking g (some ct) now tr db).2 = db := by
  unfold updateUserTracking
  rw [hlast]
  simp only [hid, bne_self_eq_false, if_neg Bool.false_ne_true, hplay, if_true]
  refine ⟨?_, ?_, ?_, trivial⟩
  · split <;> simp
  · intro hge
    rw [if_neg (by omega)]
  · intro hcond
    rw [if_pos hcond]

/-- Witness for C3: a 60-second delta (just under the ceiling) is credited
in full; a 130-second delta is discarded entirely. -/
theorem C3_gap_discard_witness :
    (updateUserTracking noLookup (some songA) 60000 gapTracking DB.empty).1.totalPlayTime
      = gapTracking.totalPlayTime + (60000 - gapTracking.lastUpdated)
    ∧ (updateUserTracking noLookup (some songA) 130000 gapTracking DB.empty).1.totalPlayTime
      = gapTracking.totalPlayTime := by
  constructor
  · exact (C3_gap_discard noLookup songA songA 60000 gapTracking DB.empty
      rfl rfl rfl).2.2.1 (by decide)
  · exact (C3_gap_discard noLookup songA songA 130000 gapTracking DB.empty
      rfl rfl rfl).2.1 (by decide)

/-- C4: with a current track, StopTracking persists exactly one listening
event when the accumulated play time is at or above the 30000-ms dwell
threshold, and persists nothing below it (the event is silently dropped). -/
theorem C4_dwell_threshold (g : ArtistLookup)
    (sessions : List (String × UserTracking)) (uid : String) (db : DB)
    (tr : UserTracking) (ct : CurrentlyPlayingTrack)
    (hfind : sessions.find? (fun p => p.1 = uid) = some (uid, tr))
    (htrack : tr.lastTrack = some ct) :
    (tr.totalPlayTime < 30000 →
      (stopTracking g sessions uid db).2.listeningHistory = db.listeningHistory)
    ∧ (30000 ≤ tr.totalPlayTime →
      (stopTracking g sessions uid db).2.listeningHistory
        = db.listeningHistory ++ [liveFlushRow tr ct]) := by
  unfold stopTracking
  rw [hfind]
  dsimp only
  rw [htrack]
  dsimp only
  constructor
  · intro hlt
    have h := saveListeningSession_below g
      { userId := tr.userId, spotifyToken := tr.spotifyToken,
        lastTrack := some ct, sessionStart := tr.sessionStart,
        totalPlayTime := tr.totalPlayTime, lastUpdated := tr.lastUpdated,
        isActive := false } db ct rfl hlt
    rw [h]
  · intro hge
    exact saveListeningSession_flush g
      { userId := tr.userId, spotifyToken := tr.spotifyToken,
        lastTrack := some ct, sessionStart := tr.sessionStart,
        totalPlayTime := tr.totalPlayTime, lastUpdated := tr.lastUpdated,
        isActive := false } db ct rfl hge

/-- Witness for C4: a session stopped at 0 accumulated ms flushes nothing; a
session stopped at 40000 ms flushes exactly the one expected row. -/
theorem C4_dwell_threshold_witness :
    (stopTracking noLookup [("u1", gapTracking)] "u1" DB.empty).2.listeningHistory = []
    ∧ (stopTracking noLookup [("u1", dupSession)] "u1" DB.empty).2.listeningHistory
      = [liveFlushRow dupSession songA] := by
  constructor
  · exact (C4_dwell_threshold noLookup [("u1", gapTracking)] "u1" DB.empty
      gapTracking songA (by decide) rfl).1 (by decide)
  · exact (C4_dwell_threshold noLookup [("u1", dupSession)] "u1" DB.empty
      dupSession songA (by decide) rfl).2 (by decide)

/-! ## Helper lemmas: the three tick transitions of the live state machine -/

/-- C2 counterexample: running Scenario A (Start at 0; tick 1 at 15000 ms
reports Song A playing; tick 2 twenty seconds later the same; tick 3 twenty
seconds later reports Song B) persists exactly one row for Song A, but its
stored listened_duration_ms is 0, not approximately 40000 — the live flush
INSERT carries no duration column — and the in-memory accumulated play time
at the flush was 35000 ms, since the tick2-to-tick3 interval is credited to
Song B. -/
theorem C2_counterexample_duration_not_stored :
    ((scenarioA 15000).2.2.listeningHistory.map HistoryRow.trackId = ["A"])
    ∧ ((scenarioA 15000).2.2.listeningHistory.map HistoryRow.listenedDurationMs = [0])
    ∧ (scenarioA 15000).1.1.totalPlayTime = 35000
    ∧ (scenarioA 15000).2.1.totalPlayTime = 20000 := by
  exact ⟨by decide, by decide, by decide, by decide⟩

lemma scenarioA_tick1 (T1 : Int) (h1 : 10000 ≤ T1) (h2 : T1 < 120000) :
    updateUserTracking noLookup (some songA) T1 (startTracking "u1" "tok" 0) DB.empty
      = ({ userId := "u1", spotifyToken := "tok", lastTrack := some songA,
           sessionStart := T1, totalPlayTime := T1, lastUpdated := T1,
           isActive := true }, DB.empty) := by
  unfold updateUserTracking startTracking
  simp only [eq_self_iff_true, if_true, show songA.isPlaying = true from rfl, sub_zero]
  rw [if_pos (show (0:Int) < T1 ∧ T1 < 120000 from by omega)]
  simp

lemma updateUserTracking_same (g : ArtistLookup) (ct lt : CurrentlyPlayingTrack)
    (now : Int) (tr : UserTracking) (db : DB)
    (h : tr.lastTrack = some lt) (hid : lt.id = ct.id) (hp : ct.isPlaying = true)
    (hcond : 0 < now - tr.lastUpdated ∧ now - tr.lastUpdated < 120000) :
    updateUserTracking g (some ct) now tr db
      = ({ tr with totalPlayTime := tr.totalPlayTime + (now - tr.lastUpdated)
                   lastUpdated := now }, db) := by
  unfold updateUserTracking
  rw [h]
  simp only [hid, bne_self_eq_false, if_neg Bool.false_ne_true, hp, if_true]
  rw [if_pos hcond]
  simp [h]

lemma updateUserTracking_change (g : ArtistLookup) (ct lt : CurrentlyPlayingTrack)
    (now : Int) (tr : UserTracking) (db : DB)
    (h : tr.lastTrack = some lt) (hid : lt.id ≠ ct.id) (hp : ct.isPlaying = true)
    (hcond : 0 < now - tr.lastUpdated ∧ now - tr.lastUpdated < 120000) :
    updateUserTracking g (some ct) now tr db
      = ({ tr with lastTrack := some ct
                   sessionStart := now
                   totalPlayTime := now - tr.lastUpdated
                   lastUpdated := now },
         saveListeningSession g tr db) := by
  unfold updateUserTracking
  rw [h]
  have hb : (lt.id != ct.id) = true := by simp [hid]
  simp only [hb, if_true, hp]
  rw [if_pos hcond]
  simp

/-- C2 (amended): in Scenario A with tick 1 at T1 in [10000 ms, 120000 ms)
after Start and ticks at T1+20000 and T1+40000, exactly one Listening Event
for Song A is persisted at tick 3, with played_at = T1 (the accumulation
window start); its stored listened_duration_ms is 0 because the live flush
INSERT lists no duration column, while the in-memory accumulated play time
at flush is T1 + 20000 (Start-to-tick1 plus tick1-to-tick2; the
tick2-to-tick3 interval is credited to the next track). -/
theorem C2_scenario (T1 : Int) (h1 : 10000 ≤ T1) (h2 : T1 < 120000) :
    (scenarioA T1).2.2.listeningHistory
      = [{ userId := "u1", trackId := "A", playedAt := T1,
           listenedDurationMs := 0, listeningPercentage := 0,
           contextType := "", contextUri := "", platform := none,
           country := none, shuffle := false, skipped := false,
           offline := false, incognitoMode := false, reasonStart := none,
           reasonEnd := none }]
    ∧ (scenarioA T1).1.1.totalPlayTime = T1 + 20000
    ∧ (scenarioA T1).2.1.totalPlayTime = 20000 := by
  have t1 := scenarioA_tick1 T1 h1 h2
  have t2 := updateUserTracking_same noLookup songA songA (T1 + 20000)
    { userId := "u1", spotifyToken := "tok", lastTrack := some songA,
      sessionStart := T1, totalPlayTime := T1, lastUpdated := T1,
      isActive := true } DB.empty rfl rfl rfl (by dsimp only; constructor <;> omega)
  dsimp only at t2
  have e : T1 + (T1 + 20000 - T1) = T1 + 20000 := by ring
  rw [e] at t2
  have t3 := updateUserTracking_change noLookup songB songA (T1 + 40000)
    { userId := "u1", spotifyToken := "tok", lastTrack := some songA,
      sessionStart := T1, totalPlayTime := T1 + 20000,
      lastUpdated := T1 + 20000, isActive := true } DB.empty rfl
    (by decide) rfl (by dsimp only; constructor <;> omega)
  dsimp only at t3
  have e3 : T1 + 40000 - (T1 + 20000) = 20000 := by ring
  rw [e3] at t3
  have hflush := saveListeningSession_flush noLookup
    { userId := "u1", spotifyToken := "tok", lastTrack := some songA,
      sessionStart := T1, totalPlayTime := T1 + 20000,
      lastUpdated := T1 + 20000, isActive := true } DB.empty songA rfl
    (by dsimp only; omega)
  unfold scenarioA
  dsimp only
  rw [t1]
  dsimp only
  rw [t2]
  dsimp only
  rw [t3]
  dsimp only
  refine ⟨?_, rfl, rfl⟩
  rw [hflush]
  simp [liveFlushRow, songA, DB.empty]


/-- Witness for C2 (amended): the scenario instantiated at T1 = 15000 —
one Song A row at played_at 15000 with stored duration 0, accumulated
in-memory play time 35000 at flush. -/
theorem C2_scenario_witness :
    (scenarioA 15000).2.2.listeningHistory
      = [{ userId := "u1", trackId := "A", playedAt := 15000,
           listenedDurationMs := 0, listeningPercentage := 0,
           contextType := "", contextUri := "", platform := none,
           country := none, shuffle := false, skipped := false,
           offline := false, incognitoMode := false, reasonStart := none,
           reasonEnd := none }]
    ∧ (scenarioA 15000).1.1.totalPlayTime = 35000 := by
  have h := C2_scenario 15000 (by decide) (by decide)
  refine ⟨h.1, ?_⟩
  rw [h.2.1]
  norm_num


/-! ## Helper lemmas: the import batch -/

lemma processJSONFile_go (data : List SpotifyStreamingData)
    (acc : List SpotifyStreamingData) (n : Nat) :
    data.foldl
      (fun acc stream =>
        if isValidStream stream then (acc.1 ++ [stream], acc.2)
        else (acc.1, acc.2 + 1)) (acc, n)
      = (acc ++ data.filter (fun s => decide (isValidStream s)),
         n + data.countP (fun s => !decide (isValidStream s))) := by
  induction data generalizing acc n with
  | nil => simp
  | cons s rest ih =>
    by_cases h : isValidStream s <;>
      simp [List.filter_cons, List.countP_cons, h, ih]
    · omega

/-- processJSONFile keeps exactly the records passing the validity filter
and counts the rest as skipped. -/
lemma processJSONFile_eq (data : List SpotifyStreamingData) :
    processJSONFile data
      = (data.filter (fun s => decide (isValidStream s)),
         data.countP (fun s => !decide (isValidStream s))) := by
  unfold processJSONFile
  rw [processJSONFile_go]
  simp

@[simp] lemma importArtistStep_history (a n : String) (st : ImportState) :
    (importArtistStep a n st).db.listeningHistory = st.db.listeningHistory := by
  unfold importArtistStep; split <;> simp

@[simp] lemma importAlbumStep_history (a n : String) (st : ImportState) :
    (importAlbumStep a n st).db.listeningHistory = st.db.listeningHistory := by
  unfold importAlbumStep; split <;> simp

@[simp] lemma importTrackStep_history (t n a an : String) (st : ImportState) :
    (importTrackStep t n a an st).db.listeningHistory = st.db.listeningHistory := by
  unfold importTrackStep; split <;> simp

@[simp] lemma importLinkStep_history (t a : String) (st : ImportState) :
    (importLinkStep t a st).db.listeningHistory = st.db.listeningHistory := by
  unfold importLinkStep; split <;> simp

lemma insertHistoryOnConflictTriple_shape (row : HistoryRow) (db : DB) :
    (insertHistoryOnConflictTriple row db).listeningHistory = db.listeningHistory
    ∨ (insertHistoryOnConflictTriple row db).listeningHistory
        = db.listeningHistory ++ [row] := by
  unfold insertHistoryOnConflictTriple
  split
  · exact Or.inl rfl
  · exact Or.inr rfl

lemma importHistoryStep_shape (u tid : String) (pa : Int)
    (s : SpotifyStreamingData) (st : ImportState) :
    (importHistoryStep u tid pa s st).db.listeningHistory = st.db.listeningHistory
    ∨ (importHistoryStep u tid pa s st).db.listeningHistory
        = st.db.listeningHistory ++ [importHistoryRow u tid pa s] := by
  unfold importHistoryStep
  split
  · exact insertHistoryOnConflictTriple_shape _ _
  · exact Or.inl rfl

/-- One import-loop iteration either leaves listening_history unchanged or
appends one row carrying the looping user id and the record's ms_played. -/
lemma saveRecordStep_history_shape (u : String) (st : ImportState)
    (s : SpotifyStreamingData) :
    (saveRecordStep u st s).db.listeningHistory = st.db.listeningHistory
    ∨ ∃ row : HistoryRow,
        (saveRecordStep u st s).db.listeningHistory
          = st.db.listeningHistory ++ [row]
        ∧ row.userId = u ∧ row.listenedDurationMs = s.msPlayed := by
  unfold saveRecordStep
  split
  · exact Or.inl rfl
  · dsimp only
    rename_i t heq
    rcases importHistoryStep_shape u (extractTrackIDFromURI s.spotifyTrackURI)
      t.unixMilli s _ with h | h
    · exact Or.inl (by rw [h]; simp)
    · exact Or.inr ⟨importHistoryRow u (extractTrackIDFromURI s.spotifyTrackURI)
        t.unixMilli s, by rw [h]; simp, rfl, rfl⟩

/-- Every listening_history row present after an import batch either was
already there or carries the importing user id and some batch record's
ms_played value. -/
lemma saveToDatabase_history_mem (u : String) (data : List SpotifyStreamingData) :
    ∀ st : ImportState, ∀ r ∈ (data.foldl (saveRecordStep u) st).db.listeningHistory,
      r ∈ st.db.listeningHistory
      ∨ ∃ s ∈ data, r.userId = u ∧ r.listenedDurationMs = s.msPlayed := by
  induction data with
  | nil => exact fun st r hr => Or.inl hr
  | cons s rest ih =>
    intro st r hr
    rw [List.foldl_cons] at hr
    rcases ih (saveRecordStep u st s) r hr with h | ⟨s', hs', hp⟩
    · rcases saveRecordStep_history_shape u st s with hsh | ⟨row, hsh, hu, hd⟩
      · rw [hsh] at h
        exact Or.inl h
      · rw [hsh] at h
        rcases List.mem_append.mp h with h1 | h2
        · exact Or.inl h1
        · have hr2 : r = row := by simpa using h2
          subst hr2
          exact Or.inr ⟨s, List.mem_cons_self s rest, hu, hd⟩
    · exact Or.inr ⟨s', List.mem_cons_of_mem s hs', hp⟩

/-- C6: a bulk-export record is accepted exactly when its listened duration
is at least 5000 ms and its track and artist names are nonempty; the rest
are skipped (counted, no error) and contribute no listening_history row —
every row the batch writes carries an accepted record's duration, hence at
least 5000 ms. -/
theorem C6_validity_filter (data : List SpotifyStreamingData) (userID : String)
    (db : DB) :
    (processJSONFile data).1 = data.filter (fun s => decide (isValidStream s))
    ∧ (processJSONFile data).1.length + (processJSONFile data).2 = data.length
    ∧ (∀ s ∈ data, ¬ isValidStream s → s ∉ (processJSONFile data).1)
    ∧ (∀ r ∈ (saveToDatabase userID (processJSONFile data).1 db).listeningHistory,
        r ∈ db.listeningHistory ∨ 5000 ≤ r.listenedDurationMs) := by
  refine ⟨by rw [processJSONFile_eq], ?_, ?_, ?_⟩
  · rw [processJSONFile_eq]
    dsimp only
    induction data with
    | nil => rfl
    | cons s rest ih =>
      by_cases h : isValidStream s <;>
        simp [List.filter_cons, List.countP_cons, h] <;> omega
  · intro s _ hv hmem
    rw [processJSONFile_eq] at hmem
    rw [List.mem_filter] at hmem
    exact hv (by simpa using hmem.2)
  · intro r hr
    unfold saveToDatabase at hr
    rcases saveToDatabase_history_mem userID (processJSONFile data).1 _ r hr
      with h | ⟨s', hs', _, hdur⟩
    · exact Or.inl h
    · refine Or.inr ?_
      rw [processJSONFile_eq, List.mem_filter] at hs'
      have hv : isValidStream s' := by simpa using hs'.2
      rw [hdur]
      exact hv.1

/-- Witness for C6: of three records — one valid, one 4999 ms, one without
an artist name — only the valid one is accepted, two are skipped, and the
batch writes exactly the valid record's row. -/
theorem C6_validity_filter_witness :
    shortStream ∉ (processJSONFile [validStream, shortStream, namelessStream]).1
    ∧ processJSONFile [validStream, shortStream, namelessStream] = ([validStream], 2)
    ∧ (saveToDatabase "u1" (processJSONFile [validStream, shortStream, namelessStream]).1
        DB.empty).listeningHistory.map HistoryRow.listenedDurationMs = [60000] := by
  refine ⟨?_, by decide, by decide⟩
  exact (C6_validity_filter [validStream, shortStream, namelessStream] "u1"
    DB.empty).2.2.1 shortStream (by simp) (by decide)

/-- C10: a bulk-import request without an authenticated user id is not
rejected — the handler falls back to the first row of the users table and
attributes every imported listening row to that user — and it fails only
when the users table is empty. -/
theorem C10_fallback_user (users : List String)
    (data : List SpotifyStreamingData) (db : DB) (uid : String)
    (h : users.head? = some uid) :
    resolveImportUserID none users = .ok uid
    ∧ (∀ r ∈ (saveToDatabase uid data db).listeningHistory,
        r ∈ db.listeningHistory ∨ r.userId = uid)
    ∧ resolveImportUserID none [] = .error "No user found for import" := by
  refine ⟨?_, ?_, rfl⟩
  · unfold resolveImportUserID
    rw [h]
  · intro r hr
    unfold saveToDatabase at hr
    rcases saveToDatabase_history_mem uid data _ r hr with hmem | ⟨_, _, hu, _⟩
    · exact Or.inl hmem
    · exact Or.inr hu

/-- Witness for C10: with no context user, a users table holding only "u9",
and one valid record, the import proceeds as "u9" and the stored row belongs
to "u9". -/
theorem C10_fallback_user_witness :
    resolveImportUserID none ["u9"] = .ok "u9"
    ∧ (saveToDatabase "u9" [validStream] DB.empty).listeningHistory.map
        HistoryRow.userId = ["u9"] := by
  exact ⟨(C10_fallback_user ["u9"] [validStream] DB.empty "u9" rfl).1, by decide⟩

/-- C8: timestamp parsing tries full-offset RFC3339 first, then the
Z-suffixed extended-history layout, then the bare local datetime; the first
success wins, and when all three fail the record is rejected — the import
loop drops it without touching the database or the loop state. -/
theorem C8_timestamp_fallback_chain (s : List Char) :
    (∀ t, parseRFC3339 s = some t → ParseSpotifyTimestampToLocal s = .ok t)
    ∧ (parseRFC3339 s = none → ∀ t, parseExtendedHistory s = some t →
        ParseSpotifyTimestampToLocal s = .ok t)
    ∧ (parseRFC3339 s = none → parseExtendedHistory s = none → ∀ t,
        parseBareDatetime s = some t → ParseSpotifyTimestampToLocal s = .ok t)
    ∧ (parseRFC3339 s = none → parseExtendedHistory s = none →
        parseBareDatetime s = none →
        ParseSpotifyTimestampToLocal s = .error "unable to parse timestamp")
    ∧ (∀ (userID : String) (st : ImportState) (stream : SpotifyStreamingData),
        stream.ts.data = s →
        ParseSpotifyTimestampToLocal s = .error "unable to parse timestamp" →
        saveRecordStep userID st stream = st) := by
  refine ⟨?_, ?_, ?_, ?_, ?_⟩
  · intro t h
    unfold ParseSpotifyTimestampToLocal
    rw [h]
  · intro h1 t h2
    unfold ParseSpotifyTimestampToLocal
    rw [h1, h2]
  · intro h1 h2 t h3
    unfold ParseSpotifyTimestampToLocal
    rw [h1, h2, h3]
  · intro h1 h2 h3
    unfold ParseSpotifyTimestampToLocal
    rw [h1, h2, h3]
  · intro userID st stream hts herr
    unfold saveRecordStep
    rw [hts, herr]

/-- Witness for C8: a full-offset stamp, a Z stamp and a bare stamp all
parse (by the chain), an unparseable stamp errors, and the import loop drops
the record carrying it. -/
theorem C8_timestamp_fallback_chain_witness :
    ParseSpotifyTimestampToLocal "2024-01-02T03:04:05+02:00".data
      = .ok ⟨2024, 1, 2, 3, 4, 5, 0, 120⟩
    ∧ ParseSpotifyTimestampToLocal "2024-01-02T03:04:05Z".data
      = .ok ⟨2024, 1, 2, 3, 4, 5, 0, 0⟩
    ∧ ParseSpotifyTimestampToLocal "2024-01-02T03:04:05".data
      = .ok ⟨2024, 1, 2, 3, 4, 5, 0, 0⟩
    ∧ ParseSpotifyTimestampToLocal "02/01/2024 03:04".data
      = .error "unable to parse timestamp"
    ∧ saveRecordStep "u1" ⟨DB.empty, [], [], []⟩ badStampStream
      = ⟨DB.empty, [], [], []⟩ := by
  refine ⟨?_, ?_, ?_, ?_, ?_⟩
  · exact (C8_timestamp_fallback_chain _).1 _ (by decide)
  · exact (C8_timestamp_fallback_chain _).1 _ (by decide)
  · exact (C8_timestamp_fallback_chain _).2.2.1 (by decide) (by decide) _ (by decide)
  · exact (C8_timestamp_fallback_chain _).2.2.2.1 (by decide) (by decide) (by decide)
  · exact (C8_timestamp_fallback_chain _).2.2.2.2 "u1" _ badStampStream rfl rfl

/-! ## Helper lemma: popularity refresh keeps ids and genres -/

lemma find?_popularity_update (aid : String) (pop : Int) (l : List ArtistRow)
    (row : ArtistRow) (hf : l.find? (fun r => r.id = aid) = some row) :
    ((l.map (fun r =>
        if r.id = aid ∧ r.popularity ≠ pop then { r with popularity := pop }
        else r)).find? (fun r => r.id = aid)).map ArtistRow.popularity
      = some pop := by
  induction l with
  | nil => simp at hf
  | cons hd tl ih =>
    by_cases hh : hd.id = aid
    · have hid : (if hd.id = aid ∧ hd.popularity ≠ pop
          then { hd with popularity := pop } else hd).id = aid := by
        split <;> simpa
      rw [List.map_cons, List.find?_cons_of_pos _ (by simpa using hid)]
      by_cases hp : hd.popularity = pop
      · simp [hh, hp]
      · simp [hh, hp]
    · rw [List.find?_cons_of_neg _ (by simpa using hh)] at hf
      rw [List.map_cons, List.find?_cons_of_neg _ (by simp [hh])]
      exact ih hf

/-- C7: once an artist row has a nonempty genre list, an enrichment pass
leaves every artist's id and genre list unchanged and refreshes the named
artist's popularity, independently of the upstream endpoint (the lookup is
skipped); and when the row has no genres and the upstream call fails, the
pass degrades to the cheap name+popularity upsert instead of failing. -/
theorem C7_genre_preservation (g : ArtistLookup) (aid nm : String) (pop : Int)
    (db : DB) (row : ArtistRow)
    (hfind : db.artists.find? (fun r => r.id = aid) = some row)
    (hgen : row.genres ≠ []) :
    ((saveArtistWithDetails g aid nm pop db).artists.map (fun r => (r.id, r.genres))
        = db.artists.map (fun r => (r.id, r.genres)))
    ∧ (((saveArtistWithDetails g aid nm pop db).artists.find?
          (fun r => r.id = aid)).map ArtistRow.popularity = some pop)
    ∧ (∀ g2 : ArtistLookup,
        saveArtistWithDetails g2 aid nm pop db = saveArtistWithDetails g aid nm pop db)
    ∧ (∀ (g2 : ArtistLookup) (aid2 nm2 : String) (pop2 : Int) (db2 : DB),
        ((db2.artists.find? (fun r => r.id = aid2)).map ArtistRow.genres).getD [] = [] →
        g2 aid2 = none →
        saveArtistWithDetails g2 aid2 nm2 pop2 db2
          = upsertArtistBasic aid2 nm2 pop2 db2) := by
  refine ⟨?_, ?_, ?_, ?_⟩
  · unfold saveArtistWithDetails
    rw [hfind]
    dsimp only
    rw [if_pos hgen]
    dsimp only
    rw [List.map_map]
    refine List.map_congr_left ?_
    intro r _
    dsimp only [Function.comp]
    split <;> rfl
  · unfold saveArtistWithDetails
    rw [hfind]
    dsimp only
    rw [if_pos hgen]
    exact find?_popularity_update aid pop db.artists row hfind
  · intro g2
    unfold saveArtistWithDetails
    rw [hfind]
    dsimp only
    rw [if_pos hgen, if_pos hgen]
  · intro g2 aid2 nm2 pop2 db2 hgen2 hup
    unfold saveArtistWithDetails
    cases hfind2 : db2.artists.find? (fun r => r.id = aid2) with
    | none =>
      dsimp only
      rw [if_neg (by simp), hup]
    | some r2 =>
      rw [hfind2] at hgen2
      simp only [Option.map_some', Option.getD_some] at hgen2
      dsimp only
      rw [if_neg (by simp [hgen2]), hup]

/-- Witness for C7: Scenario E — an artist stored with three genres, an
upstream answer carrying one genre and popularity 77, an enrichment call at
popularity 50: the stored genre list stays the same three genres, the stored
popularity becomes 50; and for a genre-less artist with a failing upstream,
the pass equals the cheap upsert. -/
theorem C7_genre_preservation_witness :
    ((saveArtistWithDetails oneGenreLookup "ar1" "Artist One" 50 dbWithGenres).artists.map
        (fun r => (r.id, r.genres))
      = [("ar1", ["g1", "g2", "g3"])])
    ∧ (((saveArtistWithDetails oneGenreLookup "ar1" "Artist One" 50
          dbWithGenres).artists.find? (fun r => r.id = "ar1")).map
        ArtistRow.popularity = some 50)
    ∧ saveArtistWithDetails noLookup "ar2" "Artist Two" 30 dbWithGenres
      = upsertArtistBasic "ar2" "Artist Two" 30 dbWithGenres := by
  refine ⟨by decide, ?_, ?_⟩
  · exact (C7_genre_preservation oneGenreLookup "ar1" "Artist One" 50 dbWithGenres
      ⟨"ar1", "Artist One", ["g1", "g2", "g3"], 10, none⟩ (by decide) (by decide)).2.1
  · exact (C7_genre_preservation oneGenreLookup "ar1" "Artist One" 50 dbWithGenres
      ⟨"ar1", "Artist One", ["g1", "g2", "g3"], 10, none⟩ (by decide) (by decide)).2.2.2
      noLookup "ar2" "Artist Two" 30 dbWithGenres (by decide) rfl

/-! ## Helper lemmas: splitting on a separator character -/

lemma splitOnChar_cons (sep c : Char) (cs : List Char) :
    splitOnChar sep (c :: cs)
      = match splitOnChar sep cs with
        | [] => [[]]
        | w :: ws => if c = sep then [] :: w :: ws else (c :: w) :: ws := rfl

lemma splitOnChar_ne_nil (sep : Char) (l : List Char) :
    splitOnChar sep l ≠ [] := by
  induction l with
  | nil => simp [splitOnChar]
  | cons c cs ih =>
    rw [splitOnChar_cons]
    cases h : splitOnChar sep cs with
    | nil => simp
    | cons w ws => dsimp only; split <;> simp

lemma splitOnChar_not_mem (sep : Char) (l : List Char) (h : sep ∉ l) :
    splitOnChar sep l = [l] := by
  induction l with
  | nil => rfl
  | cons c cs ih =>
    have hc : ¬ c = sep := fun e => h (e ▸ List.mem_cons_self c cs)
    have hcs : sep ∉ cs := fun m => h (List.mem_cons_of_mem c m)
    rw [splitOnChar_cons, ih hcs]
    dsimp only
    rw [if_neg hc]

lemma splitOnChar_append (sep : Char) (a b : List Char) (ha : sep ∉ a) :
    splitOnChar sep (a ++ sep :: b) = a :: splitOnChar sep b := by
  induction a with
  | nil =>
    rw [List.nil_append, splitOnChar_cons]
    cases h : splitOnChar sep b with
    | nil => exact absurd h (splitOnChar_ne_nil sep b)
    | cons w ws => dsimp only; rw [if_pos rfl]
  | cons c cs ih =>
    have hc : ¬ c = sep := fun e => ha (e ▸ List.mem_cons_self c cs)
    have hcs : sep ∉ cs := fun m => ha (List.mem_cons_of_mem c m)
    rw [List.cons_append, splitOnChar_cons, ih hcs]
    dsimp only
    rw [if_neg hc]

lemma mem_splitOnChar_not_mem (sep : Char) (l : List Char) :
    ∀ w ∈ splitOnChar sep l, sep ∉ w := by
  induction l with
  | nil =>
    intro w hw
    simp [splitOnChar] at hw
    simp [hw]
  | cons c cs ih =>
    intro w hw
    rw [splitOnChar_cons] at hw
    cases h : splitOnChar sep cs with
    | nil => exact absurd h (splitOnChar_ne_nil sep cs)
    | cons v vs =>
      rw [h] at hw
      dsimp only at hw
      have hv : v ∈ splitOnChar sep cs := by
        rw [h]; exact List.mem_cons_self v vs
      by_cases hc : c = sep
      · rw [if_pos hc] at hw
        rcases List.mem_cons.mp hw with hw | hw
        · simp [hw]
        · rcases List.mem_cons.mp hw with hw2 | hw2
          · exact hw2 ▸ ih v hv
          · exact ih w (by rw [h]; exact List.mem_cons_of_mem v hw2)
      · rw [if_neg hc] at hw
        rcases List.mem_cons.mp hw with hw | hw
        · subst hw
          intro hmem
          rcases List.mem_cons.mp hmem with e | e
          · exact hc e.symm
          · exact ih v hv e
        · exact ih w (by rw [h]; exact List.mem_cons_of_mem v hw)

lemma joinSep_cons_cons (sep : Char) (w x : List Char) (xs : List (List Char)) :
    joinSep sep (w :: x :: xs) = w ++ sep :: joinSep sep (x :: xs) := rfl

lemma joinSep_splitOnChar (sep : Char) (l : List Char) :
    joinSep sep (splitOnChar sep l) = l := by
  induction l with
  | nil => rfl
  | cons c cs ih =>
    rw [splitOnChar_cons]
    cases h : splitOnChar sep cs with
    | nil => exact absurd h (splitOnChar_ne_nil sep cs)
    | cons v vs =>
      rw [h] at ih
      dsimp only
      by_cases hc : c = sep
      · rw [if_pos hc, joinSep_cons_cons, List.nil_append, ih, hc]
      · rw [if_neg hc]
        cases vs with
        | nil =>
          show c :: v = c :: cs
          rw [show joinSep sep [v] = v from rfl] at ih
          rw [ih]
        | cons v2 vs2 =>
          rw [joinSep_cons_cons]
          rw [joinSep_cons_cons] at ih
          show c :: (v ++ sep :: joinSep sep (v2 :: vs2)) = c :: cs
          rw [ih]

/-- C9: the track id of a bulk record is the third colon segment of a
spotify:track URI (any URI not of that shape yields the empty id, and a
nonempty result only arises from such a shape); artist and album ids are
the entity prefix plus the lower-cased, space-to-underscore name, so two
distinct display names normalizing alike collide on one synthetic id. -/
theorem C9_identifier_derivation :
    (∀ tid : List Char, ':' ∉ tid →
        extractTrackIDFromURI ⟨"spotify:track:".data ++ tid⟩ = ⟨tid⟩)
    ∧ (∀ uri : String, extractTrackIDFromURI uri ≠ "" →
        ∃ tid rest,
          splitOnChar ':' uri.data
              = "spotify".data :: "track".data :: tid :: rest
          ∧ ':' ∉ tid
          ∧ extractTrackIDFromURI uri = ⟨tid⟩
          ∧ uri.data = "spotify:track:".data ++ joinSep ':' (tid :: rest))
    ∧ (generateArtistID "Boards Of Canada" = "artist_boards_of_canada"
       ∧ generateArtistID "boards of canada" = "artist_boards_of_canada"
       ∧ ("Boards Of Canada" : String) ≠ "boards of canada")
    ∧ generateAlbumID "The Campfire Headphase" = "album_the_campfire_headphase" := by
  refine ⟨?_, ?_, by refine ⟨by decide, by decide, by decide⟩, by decide⟩
  · intro tid htid
    have hne : (⟨"spotify:track:".data ++ tid⟩ : String) ≠ "" := by
      intro h
      have hdata : "spotify:track:".data ++ tid = [] := congrArg String.data h
      rcases List.append_eq_nil.mp hdata with ⟨h1, _⟩
      exact absurd h1 (by decide)
    unfold extractTrackIDFromURI
    rw [if_neg hne]
    have hshape : ("spotify:track:".data ++ tid)
        = "spotify".data ++ ':' :: ("track".data ++ ':' :: tid) := rfl
    show (match splitOnChar ':' ("spotify:track:".data ++ tid) with
      | scheme :: typ :: tid :: _ =>
        if scheme = "spotify".data ∧ typ = "track".data then (⟨tid⟩ : String) else ""
      | _ => "") = ⟨tid⟩
    rw [hshape, splitOnChar_append ':' _ _ (by decide),
      splitOnChar_append ':' _ _ (by decide), splitOnChar_not_mem ':' tid htid]
    simp
  · intro uri hne
    unfold extractTrackIDFromURI at hne ⊢
    by_cases hempty : uri = ""
    · rw [if_pos hempty] at hne
      exact absurd rfl hne
    · rw [if_neg hempty] at hne ⊢
      cases hsplit : splitOnChar ':' uri.data with
      | nil => rw [hsplit] at hne; exact absurd rfl hne
      | cons a tail =>
        cases tail with
        | nil => rw [hsplit] at hne; exact absurd rfl hne
        | cons b tail2 =>
          cases tail2 with
          | nil => rw [hsplit] at hne; exact absurd rfl hne
          | cons c rest =>
            rw [hsplit] at hne
            dsimp only at hne ⊢
            by_cases hcond : a = "spotify".data ∧ b = "track".data
            · obtain ⟨ha, hb⟩ := hcond
              subst ha; subst hb
              refine ⟨c, rest, rfl,
                mem_splitOnChar_not_mem ':' uri.data c
                  (by rw [hsplit]; simp), ?_, ?_⟩
              · rw [if_pos ⟨rfl, rfl⟩]
              · conv_lhs => rw [← joinSep_splitOnChar ':' uri.data, hsplit]
                cases rest with
                | nil => rfl
                | cons r rs => rfl
            · rw [if_neg hcond] at hne
              exact absurd rfl hne

/-- Witness for C9: a well-formed track URI yields its trailing id; an album
URI, a colon-less string and the empty string yield the empty id; and two
distinct display names collide on the same synthetic artist id. -/
theorem C9_identifier_derivation_witness :
    extractTrackIDFromURI "spotify:track:tA99" = "tA99"
    ∧ extractTrackIDFromURI "spotify:album:xyz" = ""
    ∧ extractTrackIDFromURI "not a uri" = ""
    ∧ extractTrackIDFromURI "" = ""
    ∧ generateArtistID "Boards Of Canada" = generateArtistID "boards of canada" := by
  refine ⟨?_, by decide, by decide, by decide, by decide⟩
  exact C9_identifier_derivation.1 "tA99".data (by decide)

/-! ## Helper lemmas: the catch-up sync walker -/

lemma accumulateBatch_cons (it : RecentlyPlayedItem)
    (rest : List RecentlyPlayedItem) (acc : List RecentlyPlayedItem)
    (keys : List String) :
    accumulateBatch (it :: rest) acc keys
      = match it.track with
        | none => accumulateBatch rest acc keys
        | some tr =>
          if itemKey tr it ∈ keys then accumulateBatch rest acc keys
          else accumulateBatch rest (acc ++ [it]) (keys ++ [itemKey tr it]) := by
  unfold accumulateBatch
  rw [List.foldl_cons]
  cases it.track with
  | none => rfl
  | some tr =>
    dsimp only
    split <;> rfl

/-- The walker's in-memory dedup: the accumulated items' keys are exactly
the stored key set, without duplicates. -/
lemma accumulateBatch_invariant (items : List RecentlyPlayedItem) :
    ∀ (acc : List RecentlyPlayedItem) (keys : List String),
      acc.map keyOf = keys → keys.Nodup →
      (accumulateBatch items acc keys).1.map keyOf
          = (accumulateBatch items acc keys).2
        ∧ (accumulateBatch items acc keys).2.Nodup := by
  induction items with
  | nil => exact fun acc keys h1 h2 => ⟨h1, h2⟩
  | cons it rest ih =>
    intro acc keys h1 h2
    rw [accumulateBatch_cons]
    cases htr : it.track with
    | none => exact ih acc keys h1 h2
    | some tr =>
      dsimp only
      by_cases hk : itemKey tr it ∈ keys
      · rw [if_pos hk]
        exact ih acc keys h1 h2
      · rw [if_neg hk]
        refine ih _ _ ?_ ?_
        · rw [List.map_append, h1]
          simp [keyOf, htr]
        · rw [List.nodup_append]
          exact ⟨h2, List.nodup_singleton _, by simpa using hk⟩

/-- With fuel exceeding the remaining item budget the fetch loop never runs
out of fuel: every continuing iteration fetches at least limit ≥ 1 items. -/
lemma syncFetchBatches_no_fuel_out (fetch : PageFetch) :
    ∀ (fuel : Nat) (st : SyncLoopState), 100 - st.totalFetched < fuel →
      (syncFetchBatches fetch fuel st).2.2 ≠ SyncStop.outOfFuel := by
  intro fuel
  induction fuel with
  | zero => intro st h; omega
  | succ n ih =>
    intro st h
    unfold syncFetchBatches
    by_cases h100 : st.totalFetched < 100
    · rw [if_pos h100]
      dsimp only
      by_cases hempty : (fetch st.after
          (if st.totalFetched + 50 > 100 then 100 - st.totalFetched else 50)).length = 0
      · rw [if_pos hempty]
        simp
      · rw [if_neg hempty]
        by_cases hshort : (fetch st.after
            (if st.totalFetched + 50 > 100 then 100 - st.totalFetched else 50)).length
            < (if st.totalFetched + 50 > 100 then 100 - st.totalFetched else 50)
        · rw [if_pos hshort]
          simp
        · rw [if_neg hshort]
          refine ih _ ?_
          have hlim : 1 ≤ (if st.totalFetched + 50 > 100
              then 100 - st.totalFetched else 50) := by
            split <;> omega
          dsimp only
          omega
    · rw [if_neg h100]
      simp

lemma chainFrom_cons (a : Int) (p : SyncPage) (ps : List SyncPage) :
    chainFrom a (p :: ps) ↔ p.after = a ∧ chainFrom (nextBoundary p) ps :=
  Iff.rfl

/-- The loop state invariant survives the whole fetch loop: accumulated
items and stored keys stay aligned and duplicate-free. -/
lemma syncFetchBatches_keys_invariant (fetch : PageFetch) :
    ∀ (fuel : Nat) (st : SyncLoopState),
      st.acc.map keyOf = st.keys → st.keys.Nodup →
      ((syncFetchBatches fetch fuel st).1.acc.map keyOf
          = (syncFetchBatches fetch fuel st).1.keys
        ∧ (syncFetchBatches fetch fuel st).1.keys.Nodup) := by
  intro fuel
  induction fuel with
  | zero => exact fun st h1 h2 => ⟨h1, h2⟩
  | succ n ih =>
    intro st h1 h2
    unfold syncFetchBatches
    by_cases h100 : st.totalFetched < 100
    · rw [if_pos h100]
      dsimp only
      by_cases hempty : (fetch st.after
          (if st.totalFetched + 50 > 100 then 100 - st.totalFetched else 50)).length = 0
      · rw [if_pos hempty]
        exact ⟨h1, h2⟩
      · rw [if_neg hempty]
        by_cases hshort : (fetch st.after
            (if st.totalFetched + 50 > 100 then 100 - st.totalFetched else 50)).length
            < (if st.totalFetched + 50 > 100 then 100 - st.totalFetched else 50)
        · rw [if_pos hshort]
          exact accumulateBatch_invariant _ _ _ h1 h2
        · rw [if_neg hshort]
          exact ih _ (accumulateBatch_invariant _ _ _ h1 h2).1
            (accumulateBatch_invariant _ _ _ h1 h2).2
    · rw [if_neg h100]
      exact ⟨h1, h2⟩

/-- Every page request of the fetch loop uses the running boundary, and the
boundary for the next request is the previous page's nextBoundary — the
RFC3339 UnixMilli of its last item's played_at. -/
lemma syncFetchBatches_chain (fetch : PageFetch) :
    ∀ (fuel : Nat) (st : SyncLoopState),
      chainFrom st.after (syncFetchBatches fetch fuel st).2.1 := by
  intro fuel
  induction fuel with
  | zero => exact fun st => trivial
  | succ n ih =>
    intro st
    unfold syncFetchBatches
    by_cases h100 : st.totalFetched < 100
    · rw [if_pos h100]
      dsimp only
      by_cases hempty : (fetch st.after
          (if st.totalFetched + 50 > 100 then 100 - st.totalFetched else 50)).length = 0
      · rw [if_pos hempty]
        exact ⟨rfl, trivial⟩
      · rw [if_neg hempty]
        by_cases hshort : (fetch st.after
            (if st.totalFetched + 50 > 100 then 100 - st.totalFetched else 50)).length
            < (if st.totalFetched + 50 > 100 then 100 - st.totalFetched else 50)
        · rw [if_pos hshort]
          exact ⟨rfl, trivial⟩
        · rw [if_neg hshort]
          refine ⟨rfl, ?_⟩
          exact ih
            { totalFetched := st.totalFetched + (fetch st.after
                (if st.totalFetched + 50 > 100 then 100 - st.totalFetched else 50)).length
              after := nextBoundary
                ⟨st.after,
                  if st.totalFetched + 50 > 100 then 100 - st.totalFetched else 50,
                  fetch st.after
                    (if st.totalFetched + 50 > 100 then 100 - st.totalFetched else 50)⟩
              acc := (accumulateBatch (fetch st.after
                  (if st.totalFetched + 50 > 100 then 100 - st.totalFetched else 50))
                  st.acc st.keys).1
              keys := (accumulateBatch (fetch st.after
                  (if st.totalFetched + 50 > 100 then 100 - st.totalFetched else 50))
                  st.acc st.keys).2 }
    · rw [if_neg h100]
      exact trivial

/-- The fetch loop stops exactly at an empty page, a short page, or the
100-item ceiling, and the terminating page is the last one requested. -/
lemma syncFetchBatches_stop_char (fetch : PageFetch) :
    ∀ (fuel : Nat) (st : SyncLoopState),
      ((syncFetchBatches fetch fuel st).2.2 = SyncStop.emptyPage →
        ∃ p, (syncFetchBatches fetch fuel st).2.1.getLast? = some p
          ∧ p.items = [])
      ∧ ((syncFetchBatches fetch fuel st).2.2 = SyncStop.shortPage →
        ∃ p, (syncFetchBatches fetch fuel st).2.1.getLast? = some p
          ∧ p.items.length < p.limit ∧ p.items ≠ [])
      ∧ ((syncFetchBatches fetch fuel st).2.2 = SyncStop.ceilingHit →
        100 ≤ (syncFetchBatches fetch fuel st).1.totalFetched) := by
  intro fuel
  induction fuel with
  | zero =>
    intro st
    unfold syncFetchBatches
    refine ⟨?_, ?_, ?_⟩ <;> intro h <;> simp at h
  | succ n ih =>
    intro st
    unfold syncFetchBatches
    by_cases h100 : st.totalFetched < 100
    · rw [if_pos h100]
      dsimp only
      by_cases hempty : (fetch st.after
          (if st.totalFetched + 50 > 100 then 100 - st.totalFetched else 50)).length = 0
      · rw [if_pos hempty]
        refine ⟨fun _ => ?_, fun h => by simp at h, fun h => by simp at h⟩
        refine ⟨⟨st.after,
          if st.totalFetched + 50 > 100 then 100 - st.totalFetched else 50,
          fetch st.after
            (if st.totalFetched + 50 > 100 then 100 - st.totalFetched else 50)⟩,
          rfl, List.length_eq_zero.mp hempty⟩
      · rw [if_neg hempty]
        by_cases hshort : (fetch st.after
            (if st.totalFetched + 50 > 100 then 100 - st.totalFetched else 50)).length
            < (if st.totalFetched + 50 > 100 then 100 - st.totalFetched else 50)
        · rw [if_pos hshort]
          refine ⟨fun h => by simp at h, fun _ => ?_, fun h => by simp at h⟩
          refine ⟨⟨st.after,
            if st.totalFetched + 50 > 100 then 100 - st.totalFetched else 50,
            fetch st.after
              (if st.totalFetched + 50 > 100 then 100 - st.totalFetched else 50)⟩,
            rfl, hshort, fun e => hempty (by
              have e2 : fetch st.after (if st.totalFetched + 50 > 100
                  then 100 - st.totalFetched else 50) = [] := e
              rw [e2]
              rfl)⟩
        · rw [if_neg hshort]
          dsimp only
          refine ⟨fun h => ?_, fun h => ?_, fun h => ?_⟩
          · obtain ⟨p, hp, hpi⟩ := (ih _).1 h
            refine ⟨p, ?_, hpi⟩
            cases hl : (syncFetchBatches fetch n
                { totalFetched := st.totalFetched + (fetch st.after
                    (if st.totalFetched + 50 > 100 then 100 - st.totalFetched else 50)).length
                  after := nextBoundary
                    ⟨st.after,
                      if st.totalFetched + 50 > 100 then 100 - st.totalFetched else 50,
                      fetch st.after
                        (if st.totalFetched + 50 > 100 then 100 - st.totalFetched else 50)⟩
                  acc := (accumulateBatch (fetch st.after
                      (if st.totalFetched + 50 > 100 then 100 - st.totalFetched else 50))
                      st.acc st.keys).1
                  keys := (accumulateBatch (fetch st.after
                      (if st.totalFetched + 50 > 100 then 100 - st.totalFetched else 50))
                      st.acc st.keys).2 }).2.1 with
            | nil => rw [hl] at hp; simp at hp
            | cons q qs =>
              rw [hl] at hp
              rw [List.getLast?_cons_cons]
              exact hp
          · obtain ⟨p, hp, hpi⟩ := (ih _).2.1 h
            refine ⟨p, ?_, hpi⟩
            cases hl : (syncFetchBatches fetch n
                { totalFetched := st.totalFetched + (fetch st.after
                    (if st.totalFetched + 50 > 100 then 100 - st.totalFetched else 50)).length
                  after := nextBoundary
                    ⟨st.after,
                      if st.totalFetched + 50 > 100 then 100 - st.totalFetched else 50,
                      fetch st.after
                        (if st.totalFetched + 50 > 100 then 100 - st.totalFetched else 50)⟩
                  acc := (accumulateBatch (fetch st.after
                      (if st.totalFetched + 50 > 100 then 100 - st.totalFetched else 50))
                      st.acc st.keys).1
                  keys := (accumulateBatch (fetch st.after
                      (if st.totalFetched + 50 > 100 then 100 - st.totalFetched else 50))
                      st.acc st.keys).2 }).2.1 with
            | nil => rw [hl] at hp; simp at hp
            | cons q qs =>
              rw [hl] at hp
              rw [List.getLast?_cons_cons]
              exact hp
          · exact (ih _).2.2 h
    · rw [if_neg h100]
      refine ⟨fun h => by simp at h, fun h => by simp at h, fun _ => ?_⟩
      show 100 ≤ st.totalFetched
      omega

/-- One catch-up save never pushes any (user, track, played_at) triple above
one row: it inserts only when the triple has no row yet. -/
lemma countTriple_save_le (g : ArtistLookup) (u : String)
    (item : RecentlyPlayedItem) (db : DB) (u' t : String) (τ : Int) :
    countTriple (saveRecentlyPlayedTrack g u item db) u' t τ
      ≤ max (countTriple db u' t τ) 1 := by
  unfold saveRecentlyPlayedTrack
  cases item.track with
  | none => exact le_max_left _ _
  | some track =>
    dsimp only
    cases parseRFC3339 item.playedAt.data with
    | none => exact le_max_left _ _
    | some tp =>
      dsimp only
      by_cases hcnt : countTriple db u track.id tp.unixMilli > 0
      · rw [if_pos hcnt]
        exact le_max_left _ _
      · rw [if_neg hcnt]
        have hcnt0 : countTriple db u track.id tp.unixMilli = 0 := by omega
        unfold countTriple at hcnt0 ⊢
        dsimp only
        rw [saveTrackMetadata_history, foldl_saveArtistWithDetails_history,
          List.filter_append, List.length_append]
        by_cases hm : (syncedRow u track tp).userId = u'
            ∧ (syncedRow u track tp).trackId = t
            ∧ (syncedRow u track tp).playedAt = τ
        · obtain ⟨hm1, hm2, hm3⟩ := hm
          have hu : u = u' := hm1
          have ht : track.id = t := hm2
          have hτ : tp.unixMilli = τ := hm3
          subst hu; subst ht; subst hτ
          rw [hcnt0]
          simp only [Nat.zero_add]
          rw [List.filter_cons, List.filter_nil]
          split <;> simp
        · have : List.filter (fun r => decide (r.userId = u' ∧ r.trackId = t
              ∧ r.playedAt = τ)) [syncedRow u track tp] = [] := by
            simp only [List.filter_cons, List.filter_nil]
            rw [if_neg (by simpa using hm)]
          rw [this]
          simp

/-- The record phase preserves the at-most-one bound for every triple. -/
lemma recordFold_count (g : ArtistLookup) (u : String) :
    ∀ (l : List RecentlyPlayedItem) (db : DB) (u' t : String) (τ : Int),
      countTriple (l.foldl
        (fun d item =>
          match item.track with
          | none => d
          | some track =>
            match parseRFC3339 item.playedAt.data with
            | none => d
            | some tp =>
              if countTriple d u track.id tp.unixMilli = 0 then
                saveRecentlyPlayedTrack g u item d
              else d) db) u' t τ
        ≤ max (countTriple db u' t τ) 1 := by
  intro l
  induction l with
  | nil => exact fun db u' t τ => le_max_left _ _
  | cons it rest ih =>
    intro db u' t τ
    rw [List.foldl_cons]
    have hstep : ∀ d' : DB,
        countTriple d' u' t τ ≤ max (countTriple db u' t τ) 1 →
        countTriple (rest.foldl
          (fun d item =>
            match item.track with
            | none => d
            | some track =>
              match parseRFC3339 item.playedAt.data with
              | none => d
              | some tp =>
                if countTriple d u track.id tp.unixMilli = 0 then
                  saveRecentlyPlayedTrack g u item d
                else d) d') u' t τ
          ≤ max (countTriple db u' t τ) 1 := by
      intro d' hd
      calc countTriple (rest.foldl _ d') u' t τ
          ≤ max (countTriple d' u' t τ) 1 := ih d' u' t τ
        _ ≤ max (max (countTriple db u' t τ) 1) 1 :=
            max_le_max hd (Nat.le_refl 1)
        _ = max (countTriple db u' t τ) 1 := by
            rw [max_assoc, max_self]
    cases it.track with
    | none => exact hstep db (le_max_left _ _)
    | some track =>
      dsimp only
      cases parseRFC3339 it.playedAt.data with
      | none => exact hstep db (le_max_left _ _)
      | some tp =>
        dsimp only
        by_cases hz : countTriple db u track.id tp.unixMilli = 0
        · rw [if_pos hz]
          exact hstep _ (countTriple_save_le g u it db u' t τ)
        · rw [if_neg hz]
          exact hstep db (le_max_left _ _)

/-- C5: the catch-up walker requests successive pages with the previous
page's last-item timestamp as boundary; with adequate fuel it never runs
out, and it stops exactly on an empty page, a page shorter than its
requested limit, or the 100-item ceiling; accumulated items are
deduplicated by the (track id, played-at) key, and after the record phase
every (user, track, played_at) triple has at most one listening_history row
beyond what the database already held. -/
theorem C5_catchup_sync_walker (fetch : PageFetch) (g : ArtistLookup)
    (u : String) (db : DB) :
    (syncUserRecentlyPlayed fetch g u db).2.2.2 ≠ SyncStop.outOfFuel
    ∧ chainFrom 0 (syncUserRecentlyPlayed fetch g u db).2.2.1
    ∧ ((syncUserRecentlyPlayed fetch g u db).2.2.2 = SyncStop.emptyPage →
        ∃ p, (syncUserRecentlyPlayed fetch g u db).2.2.1.getLast? = some p
          ∧ p.items = [])
    ∧ ((syncUserRecentlyPlayed fetch g u db).2.2.2 = SyncStop.shortPage →
        ∃ p, (syncUserRecentlyPlayed fetch g u db).2.2.1.getLast? = some p
          ∧ p.items.length < p.limit ∧ p.items ≠ [])
    ∧ ((syncUserRecentlyPlayed fetch g u db).2.2.2 = SyncStop.ceilingHit →
        100 ≤ (syncUserRecentlyPlayed fetch g u db).2.1.totalFetched)
    ∧ ((syncUserRecentlyPlayed fetch g u db).2.1.acc.map keyOf).Nodup
    ∧ (∀ (u' t : String) (τ : Int),
        countTriple (syncUserRecentlyPlayed fetch g u db).1 u' t τ
          ≤ max (countTriple db u' t τ) 1) := by
  unfold syncUserRecentlyPlayed
  dsimp only
  refine ⟨?_, ?_, ?_, ?_, ?_, ?_, ?_⟩
  · exact syncFetchBatches_no_fuel_out fetch 101 ⟨0, 0, [], []⟩ (by decide)
  · exact syncFetchBatches_chain fetch 101 ⟨0, 0, [], []⟩
  · exact (syncFetchBatches_stop_char fetch 101 ⟨0, 0, [], []⟩).1
  · exact (syncFetchBatches_stop_char fetch 101 ⟨0, 0, [], []⟩).2.1
  · exact (syncFetchBatches_stop_char fetch 101 ⟨0, 0, [], []⟩).2.2
  · have h := syncFetchBatches_keys_invariant fetch 101 ⟨0, 0, [], []⟩ rfl
      List.nodup_nil
    rw [h.1]
    exact h.2
  · intro u' t τ
    unfold recordSyncedTracks
    exact recordFold_count g u _ db u' t τ

/-- Witness for C5: a one-item upstream page ends the walk as a short page,
and the recorded database holds at most one row for the item's triple. -/
theorem C5_catchup_sync_walker_witness :
    (syncUserRecentlyPlayed demoFetch noLookup "u1" DB.empty).2.2.2
      = SyncStop.shortPage
    ∧ countTriple (syncUserRecentlyPlayed demoFetch noLookup "u1" DB.empty).1
        "u1" "tA" 1704164645000 ≤ 1 := by
  constructor
  · decide
  · exact le_trans
      ((C5_catchup_sync_walker demoFetch noLookup "u1" DB.empty).2.2.2.2.2.2
        "u1" "tA" 1704164645000)
      (by decide)

end Musike
